import Mathlib

/-!
Verification development for the `pardoc` docstring parser.

The library converts docstrings written in three conventions (google:
colon-headed sections, numpy: dash-underlined sections, liquidpy:
at-sign-headed sections) into an ordered-mapping document model and
renders the model back as text or markdown.

The definitions below are an executable shallow embedding of the
pipeline in `src/pardoc/`:
  raw text -> per-convention preprocess -> indentation-aware lexing
  (the lark `Indenter` postlex, tab width 8) -> a recursive descent
  following the per-convention lark grammar (the contextual-lexer
  terminal choices are reproduced by classifying each content line at
  the grammar position where it is consumed) -> the lark transformer
  callbacks -> the `Parsed` ordered mapping, plus the text and markdown
  renderers and the content-keyed memoization of `Parser.parse`.

All string processing is done over `List Char`; inputs are ASCII and
use "\n" line breaks, which covers every docstring the library's own
tests exercise (Python `\w`/`\s` are modelled by their ASCII subsets).
-/

set_option maxRecDepth 8192

namespace Pardoc

/-! Python string primitives. -/

/-- Whitespace characters recognised by Python `str.strip` and `\s`. -/
def isPyWS (c : Char) : Bool :=
  c = ' ' || c = '\t' || c = '\n' || c = '\r' || c = '\x0b' || c = '\x0c'

/-- Inline whitespace, the lark `WS_INLINE` class `[ \t]`. -/
def isInlineWS (c : Char) : Bool := c = ' ' || c = '\t'

/-- Python `str.rstrip()`: drop trailing whitespace. -/
def pyRstrip (s : String) : String :=
  String.mk ((s.data.reverse.dropWhile isPyWS).reverse)

/-- Python `str.lstrip(cs)`: drop every leading character from the set. -/
def pyLstrip (s : String) (cs : List Char) : String :=
  String.mk (s.data.dropWhile (fun c => cs.contains c))

/-- Split a character list at every newline character. -/
def splitNL : List Char → List (List Char)
  | [] => [[]]
  | c :: rest =>
    if c = '\n' then [] :: splitNL rest
    else
      match splitNL rest with
      | [] => [[c]]
      | l :: ls => (c :: l) :: ls

/-- Join lines with newline characters (Python `"\n".join`). -/
def joinNL : List String → String
  | [] => ""
  | [l] => l
  | l :: ls => l ++ "\n" ++ joinNL ls

/-- Join character-list lines with newline characters. -/
def joinCharNL : List (List Char) → List Char
  | [] => []
  | [l] => l
  | l :: ls => l ++ '\n' :: joinCharNL ls

/-- Python `str.splitlines()` for "\n"-separated text: like splitting on
"\n" but without a final empty piece when the text ends in a newline. -/
def pySplitlines (s : String) : List String :=
  if s.data.isEmpty then []
  else
    let parts := splitNL s.data
    let parts := if parts.getLast? = some [] then parts.dropLast else parts
    parts.map String.mk

/-- Longest common prefix of two character lists; the update rule of
`textwrap.dedent` (keep margin / shrink to indent / cut at the first
mismatch) computes exactly this. -/
def lcp : List Char → List Char → List Char
  | a :: as, b :: bs => if a = b then a :: lcp as bs else []
  | _, _ => []

/-- True for a line matching `^[ \t]+$` (whitespace-only, nonempty). -/
def lineWSOnly (l : List Char) : Bool := !l.isEmpty && l.all isInlineWS

/-- Python `textwrap.dedent`: whitespace-only lines are emptied first,
then the longest common leading run of spaces/tabs over the lines with
content is removed from every line that starts with it. -/
def pyDedent (s : String) : String :=
  let ls := (splitNL s.data).map (fun l => if lineWSOnly l then [] else l)
  let indents := (ls.filter (fun l => !l.isEmpty)).map (fun l => l.takeWhile isInlineWS)
  let margin : List Char :=
    match indents with
    | [] => []
    | i :: is => is.foldl lcp i
  let ls := ls.map (fun l => if margin.isPrefixOf l then l.drop margin.length else l)
  String.mk (joinCharNL ls)

/-! ASCII character classes for the regular expressions in the source. -/

def isUpperAZ (c : Char) : Bool := 'A' ≤ c && c ≤ 'Z'
def isLowerAZ (c : Char) : Bool := 'a' ≤ c && c ≤ 'z'
def isDigit09 (c : Char) : Bool := '0' ≤ c && c ≤ '9'

/-- Python `\w` (ASCII): letters, digits, underscore. -/
def isWordC (c : Char) : Bool := isUpperAZ c || isLowerAZ c || isDigit09 c || c = '_'

def isAlphaC (c : Char) : Bool := isUpperAZ c || isLowerAZ c

/-! Data model, `src/pardoc/parsed.py`.  The namedtuples `ParsedPara`,
`ParsedCode`, `ParsedTodo`, `ParsedItem`, `ParsedSection` hold
dynamically typed Python values (strings, `None`, lists of parsed
objects, nested namedtuples), so the embedding is a single closed
variant covering every value the pipeline stores. -/

inductive PVal where
  /-- a Python string (paragraph line, token text, ...) -/
  | str (s : String)
  /-- Python `None` (only produced by the codeblock-inside-paragraph
  unpacking in `Transformer.paragraph` when the nested code has no
  language tag) -/
  | none
  /-- a Python list of parsed values -/
  | list (xs : List PVal)
  /-- namedtuple `ParsedPara(lines)`; entries are strings or nested
  `ParsedPara` values -/
  | para (lines : List PVal)
  /-- namedtuple `ParsedCode(lang, codes)`; `codes` is normally a list
  of `ParsedPara` but `Transformer.codeblock` can also store a bare
  token string there -/
  | code (lang : Option String) (codes : PVal)
  /-- namedtuple `ParsedTodo(todo, more)` -/
  | todo (text : String) (more : List PVal)
  /-- namedtuple `ParsedItem(name, type, desc, more)` -/
  | item (name : String) (ty : Option String) (desc : String) (more : List PVal)
  /-- namedtuple `ParsedSection(title, section)` -/
  | sec (title : String) (elems : List PVal)
  /-- a Python `bool` stored in the ordered mapping (the liquidpy
  document-level `API` flag) -/
  | bool (b : Bool)
deriving Repr

/-- Python truthiness of a parsed value (used by
`Transformer.paragraph` via `newpara_started = codes` and by
`LiquidpyParser._format` via `if parsed.API`). -/
def pvTruthy : PVal → Bool
  | .str s => !s.data.isEmpty
  | .none => false
  | .list xs => !xs.isEmpty
  | .bool b => b
  | _ => true

/-- The `Parsed` ordered mapping (an `OrderedDiot`): section title to
stored value, insertion order preserved. -/
abbrev Doc := List (String × PVal)

/-- Ordered-mapping lookup. -/
def docGet (d : Doc) (k : String) : Option PVal :=
  match d with
  | [] => Option.none
  | (k2, v) :: rest => if k2 = k then some v else docGet rest k

/-- Ordered-mapping key membership. -/
def docHas (d : Doc) (k : String) : Bool := (docGet d k).isSome

/-- Ordered-mapping update: an existing key keeps its position, a new
key is appended at the end (Python ordered-dict assignment). -/
def docSet (d : Doc) (k : String) (v : PVal) : Doc :=
  match d with
  | [] => [(k, v)]
  | (k2, v2) :: rest => if k2 = k then (k, v) :: rest else (k2, v2) :: docSet rest k v

/-- Errors a parse can raise: lark `LexError` (a `DedentError` or a
position with no matching terminal), lark `ParseError` (unexpected
token), the `ValueError` of `_parse` for a duplicated section, an
exception escaping a transformer callback, and exhaustion of the
recursion fuel of the embedding (a model artifact; every concrete
evaluation in this file is run with enough fuel). -/
inductive PErr where
  | lex
  | parse
  | dup (al : String) (std : String)
  | transform
  | fuel
deriving Repr, DecidableEq

/-! Indentation-aware lexing.  The `_NL` terminal `/(\r?\n[\t ]*)+/`
merges a line break with any following blank lines and with the next
line's leading whitespace; the lark `Indenter` postlex then turns each
`_NL` token into the token itself plus INDENT/DEDENT tokens from the
indent stack.  A content line is therefore modelled together with the
number of newlines that follow it and its own indentation. -/

structure RawLine where
  /-- indent measure of the line (`indent_str.count(' ') +
  indent_str.count('\t') * 8`, the `Indenter` rule with tab length 8) -/
  indent : Nat
  /-- the line with its leading inline whitespace removed; nonempty -/
  content : List Char
  /-- number of newline characters between this line and the next
  content line (0 when the text ends right after this line) -/
  breaks : Nat
  /-- whether the immediately following physical line starts with a
  space or tab (the numpy `ITEM` lookahead `(?=\r?\n[\t ]+)`) -/
  nextWS : Bool
deriving Repr, DecidableEq

/-- Indent measure of a leading-whitespace run. -/
def indentWidth (ws : List Char) : Nat :=
  (ws.filter (fun c => c = ' ')).length + 8 * (ws.filter (fun c => c = '\t')).length

/-- A physical line that the `_NL` terminal absorbs (empty or inline
whitespace only). -/
def isBlankSeg (l : List Char) : Bool := (l.dropWhile isInlineWS).isEmpty

/-- Fold the physical lines (pieces between newline characters) into
content lines. -/
def rawLinesGo : List (List Char) → List RawLine
  | [] => []
  | seg :: rest =>
    let ct := seg.dropWhile isInlineWS
    if ct.isEmpty then rawLinesGo rest
    else
      let blanks := (rest.takeWhile isBlankSeg).length
      let brk := if rest.isEmpty then 0
                 else if blanks = rest.length then rest.length else blanks + 1
      let nws := match rest with
                 | (c :: _) :: _ => isInlineWS c
                 | _ => false
      { indent := indentWidth (seg.takeWhile isInlineWS), content := ct,
        breaks := brk, nextWS := nws } :: rawLinesGo rest

structure LexedText where
  /-- newline characters before the first content line -/
  leadingBreaks : Nat
  lines : List RawLine
deriving Repr, DecidableEq

/-- Lex a text into content lines. -/
def lexText (s : String) : LexedText :=
  let segs := splitNL s.data
  let lead := (segs.takeWhile isBlankSeg).length
  let lead := if lead = segs.length then segs.length - 1 else lead
  { leadingBreaks := lead, lines := rawLinesGo segs }

/-- Tokens of the postlexed stream as the parser consumes them: a
content line (its newline run folded in) or a synthetic INDENT/DEDENT. -/
inductive PreTok where
  | content (indent : Nat) (s : List Char) (breaks : Nat) (nextWS : Bool)
  | indentT
  | dedentT
deriving Repr, DecidableEq

/-- Pop the indent stack down to level `ind`, counting the extra pops;
fails (lark `DedentError`) when `ind` matches no stack level. -/
def popTo : List Nat → Nat → Option (List Nat × Nat)
  | [], _ => Option.none
  | top :: rest, ind =>
    if top = ind then some (top :: rest, 0)
    else if top < ind then Option.none
    else
      match popTo rest ind with
      | some (st, n) => some (st, n + 1)
      | Option.none => Option.none

/-- The `Indenter.handle_NL` step for a newline run followed by
indentation `ind`: push one level and emit INDENT when the indent
grows, emit one DEDENT per popped level when it shrinks. -/
def nlTransition (stack : List Nat) (ind : Nat) : Option (List Nat × List PreTok) :=
  match stack with
  | [] => Option.none
  | top :: rest =>
    if top < ind then some (ind :: top :: rest, [PreTok.indentT])
    else if top = ind then some (top :: rest, [])
    else
      match popTo rest ind with
      | some (st, n) => some (st, List.replicate (n + 1) PreTok.dedentT)
      | Option.none => Option.none

/-! Terminal recognition.  One terminal per content line (the grammars
are line-oriented); which terminals are tried at a line depends on the
parser state, exactly as lark's contextual lexer restricts the
candidate set, and ties between candidates go to the terminal with the
longer pattern (`TODO`/`ITEM`/`_CODETAG` before the anonymous
`para_line` terminal `/.+/`), matching lark's ordering. -/

/-- the backtick character -/
def btick : Char := Char.ofNat 96

/-- the single-quote character -/
def squote : Char := Char.ofNat 39

/-- Match `re.match(r'[A-Z][\w_]*\s*:', line)` used by
`GoogleParser._preprocess` to spot a section-header line. -/
def googleHeaderMatch (l : List Char) : Bool :=
  match l with
  | c :: rest =>
    if isUpperAZ c then
      match (rest.dropWhile isWordC).dropWhile isPyWS with
      | ':' :: _ => true
      | _ => false
    else false
  | [] => false

/-- Match `re.match(r'@[A-Za-z_][\w_]*\s*:', line)` used by
`LiquidpyParser._preprocess`. -/
def liquidHeaderMatch (l : List Char) : Bool :=
  match l with
  | '@' :: c :: rest =>
    if isAlphaC c || c = '_' then
      match (rest.dropWhile isWordC).dropWhile isPyWS with
      | ':' :: _ => true
      | _ => false
    else false
  | _ => false

/-- Lex a google section-header line: terminal
`SECTION_TITLE: /[A-Z][\w_ ]*/` followed by the literal `":"` and then
only inline whitespace before the newline; returns the title token. -/
def googleTitleTok (l : List Char) : Option String :=
  match l with
  | c :: rest =>
    if isUpperAZ c then
      let titlePart := rest.takeWhile (fun d => isWordC d || d = ' ')
      match rest.drop titlePart.length with
      | ':' :: tail => if tail.all isInlineWS then some (String.mk (c :: titlePart)) else Option.none
      | _ => Option.none
    else Option.none
  | [] => Option.none

/-- Lex a liquidpy section-header line: terminal
`SECTION_TITLE: "@" /[A-Za-z_][\w_]*/` followed by `":"`; the token
value includes the leading at sign. -/
def liquidTitleTok (l : List Char) : Option String :=
  match l with
  | '@' :: c :: rest =>
    if isAlphaC c || c = '_' then
      let nm := rest.takeWhile isWordC
      match rest.drop nm.length with
      | ':' :: tail => if tail.all isInlineWS then some (String.mk ('@' :: c :: nm)) else Option.none
      | _ => Option.none
    else Option.none
  | _ => Option.none

/-- Terminal `TODO: ("- " | "* ") REST_OF_LINE` (the rest must be
nonempty since `REST_OF_LINE: /.+/`). -/
def todoTok (l : List Char) : Bool :=
  match l with
  | '-' :: ' ' :: _ :: _ => true
  | '*' :: ' ' :: _ :: _ => true
  | _ => false

/-- Characters of the `ITEM` name class `[\w_\.\*]`. -/
def isItemNameC (c : Char) : Bool := isWordC c || c = '.' || c = '*'

/-- Match the google `ITEM` terminal
`/[A-Za-z_\*][\w_\.\*]*(\s*\([^\)]+\))?/ ":" REST_OF_LINE` against a
full content line.  The name class, the optional parenthesised group
and the colon partition the line deterministically (no character is in
two of the classes), so greedy scanning reproduces the regex. -/
def googleItemTok (l : List Char) : Bool :=
  match l with
  | c :: rest =>
    if isAlphaC c || c = '_' || c = '*' then
      let afterName := rest.dropWhile isItemNameC
      let afterOpt :=
        match afterName.dropWhile isPyWS with
        | '(' :: inner =>
          let body := inner.takeWhile (fun d => d ≠ ')')
          match inner.drop body.length with
          | ')' :: tail2 => if body.isEmpty then afterName else tail2
          | _ => afterName
        | _ => afterName
      match afterOpt with
      | ':' :: _ :: _ => true
      | _ => false
    else false
  | [] => false

/-- Match the liquidpy `ITEM` terminal, which adds the alternative
`/\([^)]+\)/ ":" REST_OF_LINE` for type-only items. -/
def liquidItemTok (l : List Char) : Bool :=
  googleItemTok l ||
  (match l with
   | '(' :: inner =>
     let body := inner.takeWhile (fun d => d ≠ ')')
     (match inner.drop body.length with
      | ')' :: ':' :: _ :: _ => !body.isEmpty
      | _ => false)
   | _ => false)

/-- Character class `[\w ,\[\]]` of the numpy item type. -/
def isNumpyTypeC (c : Char) : Bool := isWordC c || c = ' ' || c = ',' || c = '[' || c = ']'

/-- Match the numpy `ITEM` terminal
`/[A-Za-z_\*][\w_\.\*]*(\s*:\s*[A-Za-z_][\w ,\[\]]*)?(?=\r?\n[\t ]+)/`:
the match must cover the whole line (the lookahead demands a newline
right after it) and the following physical line must start with
whitespace. -/
def numpyItemTok (l : List Char) (nextWS : Bool) : Bool :=
  nextWS &&
  (match l with
   | c :: rest =>
     if isAlphaC c || c = '_' || c = '*' then
       let afterName := rest.dropWhile isItemNameC
       afterName.isEmpty ||
       (match afterName.dropWhile isPyWS with
        | ':' :: tail =>
          (match tail.dropWhile isPyWS with
           | d :: drest => (isAlphaC d || d = '_') && (drest.dropWhile isNumpyTypeC).isEmpty
           | [] => false)
        | _ => false)
     else false
   | [] => false)

/-- Recognise the two-line numpy section header: terminal
`SECTION_TITLE.9: /[A-Z][\w_ ]*/ _CR? _LF "-"+`.  The title line must
consist entirely of the title class, exactly one newline may follow it,
and the next physical line must start (unindented, since the regex
matches the dashes right after the newline) with one or more dashes
followed only by inline whitespace (which `%ignore WS_INLINE` skips
before the next `_NL`).  Returns the first line of the token, which is
what `_NumpyTransformer.section` keeps via `splitlines()[0]`. -/
def numpyTitleTok (l : RawLine) (next : Option RawLine) : Option String :=
  match l.content with
  | c :: rest =>
    if isUpperAZ c && rest.all (fun d => isWordC d || d = ' ') && l.breaks = 1 then
      match next with
      | some nx =>
        if nx.indent = 0 && nx.content.head? = some '-'
            && (nx.content.dropWhile (fun d => d = '-')).all isInlineWS then
          some (String.mk l.content)
        else Option.none
      | Option.none => Option.none
    else Option.none
  | [] => Option.none

/-- Lex an opening code fence line: `_CODETAG: /`+3,+/` (three or more
backticks), an optional `LANG: /[\w_]+/`, inline whitespace, then the
newline; anything else on the line is a lexing error because only
`LANG` and `_NL` are acceptable after the fence. -/
def codeOpenTok (l : List Char) : Option (Option String) :=
  let ticks := l.takeWhile (fun d => d = btick)
  if ticks.length < 3 then Option.none
  else
    let rest := (l.drop ticks.length).dropWhile isInlineWS
    let lang := rest.takeWhile isWordC
    let tail := (rest.drop lang.length).dropWhile isInlineWS
    if tail.isEmpty then
      if lang.isEmpty then some Option.none else some (some (String.mk lang))
    else Option.none

/-- Whether a content line starts with a code fence. -/
def startsFence (l : List Char) : Bool := (l.takeWhile (fun d => d = btick)).length ≥ 3

/-- Whether a content line is a closing code fence (backticks followed
by inline whitespace only). -/
def codeCloseTok (l : List Char) : Bool :=
  startsFence l && ((l.dropWhile (fun d => d = btick)).all isInlineWS)

/-! Transformer callbacks, `src/pardoc/default.py`, `google.py`,
`liquidpy.py`, `numpy.py`. -/

/-- The `TODO` callback: `ParsedTodo(line.lstrip('-* '), [])`.  Note
that `lstrip` removes every leading dash, asterisk and space, not just
the first marker. -/
def todoTrans (l : List Char) : PVal :=
  PVal.todo (String.mk (l.dropWhile (fun c => c = '-' || c = '*' || c = ' '))) []

/-- Match the tail pattern `\s*:\s*(.+)` of the item regexes.  When
everything after the colon is whitespace, the regex engine backtracks
the greedy `\s*` one character so that `(.+)` still matches: the
description becomes the final whitespace character. -/
def colonDesc (l : List Char) : Option String :=
  match l.dropWhile isPyWS with
  | ':' :: tail =>
    let afterWS := tail.dropWhile isPyWS
    if afterWS.isEmpty then
      match tail.reverse with
      | x :: _ => some (String.mk [x])
      | [] => Option.none
    else some (String.mk afterWS)
  | _ => Option.none

/-- The google `ITEM` callback regex
`^([A-Za-z_\*][\w_\*]*)(?:\s*\(([^\)]+)\))?\s*:\s*(.+)` (note: unlike
the `ITEM` terminal, the name class here has no dot).  Returns
`(name, type, desc)`; `Option.none` models `match` being `None`, on
which the Python code crashes with an `AttributeError`. -/
def googleItemMatch (s : String) : Option (String × Option String × String) :=
  match s.data with
  | c :: rest =>
    if isAlphaC c || c = '_' || c = '*' then
      let nmRest := rest.takeWhile (fun d => isWordC d || d = '*')
      let name := String.mk (c :: nmRest)
      let after := rest.drop nmRest.length
      let withGroup : Option (String × Option String × String) :=
        match after.dropWhile isPyWS with
        | '(' :: inner =>
          let body := inner.takeWhile (fun d => d ≠ ')')
          (match inner.drop body.length with
           | ')' :: tail =>
             if body.isEmpty then Option.none
             else
               (match colonDesc tail with
                | some desc => some (name, some (String.mk body), desc)
                | Option.none => Option.none)
           | _ => Option.none)
        | _ => Option.none
      match withGroup with
      | some r => some r
      | Option.none =>
        match colonDesc after with
        | some desc => some (name, Option.none, desc)
        | Option.none => Option.none
    else Option.none
  | [] => Option.none

/-- The google `ITEM` callback: build a `ParsedItem`, crashing when the
regex does not match. -/
def googleItemTrans (s : String) : Except PErr PVal :=
  match googleItemMatch s with
  | some (name, ty, desc) => .ok (PVal.item name ty desc [])
  | Option.none => .error .transform

/-- The liquidpy `ITEM` callback: the google regex, else
`^\(\s*([A-Za-z_\*][\w_\*]*)\s*\)(\s*):\s*(.+)` whose second group is
the whitespace between the closing parenthesis and the colon; a type
that is missing or whitespace-only is normalised to `None`. -/
def liquidItemMatch (s : String) : Option (String × Option String × String) :=
  match googleItemMatch s with
  | some r => some r
  | Option.none =>
    match s.data with
    | '(' :: inner =>
      let inner1 := inner.dropWhile isPyWS
      (match inner1 with
       | c :: rest =>
         if isAlphaC c || c = '_' || c = '*' then
           let nmRest := rest.takeWhile (fun d => isWordC d || d = '*')
           let name := String.mk (c :: nmRest)
           (match (rest.drop nmRest.length).dropWhile isPyWS with
            | ')' :: tail =>
              let ws2 := tail.takeWhile isPyWS
              (match tail.drop ws2.length with
               | ':' :: tail2 =>
                 let afterWS := tail2.dropWhile isPyWS
                 if afterWS.isEmpty then
                   (match tail2.reverse with
                    | x :: _ => some (name, some (String.mk ws2), String.mk [x])
                    | [] => Option.none)
                 else some (name, some (String.mk ws2), String.mk afterWS)
               | _ => Option.none)
            | _ => Option.none)
         else Option.none
       | [] => Option.none)
    | _ => Option.none

/-- The liquidpy `ITEM` callback with its `None` normalisation of the
type field. -/
def liquidItemTrans (s : String) : Except PErr PVal :=
  match liquidItemMatch s with
  | some (name, ty, desc) =>
    let ty := match ty with
              | some t => if t.data.all isPyWS then Option.none else some t
              | Option.none => Option.none
    .ok (PVal.item name ty desc [])
  | Option.none => .error .transform

/-- The numpy `ITEM` callback:
`^(\*{1,2}[\w_]+|[A-Za-z_][\w_]*)\s*:\s*([A-Za-z_][\w ,\[\]]*)$`, else
`^([A-Za-z_][\w ,\[\]]*)(\s*)$`; the description is always empty and a
missing or whitespace-only type becomes `None`. -/
def numpyItemMatch (s : String) : Option (String × Option String) :=
  let l := s.data
  let first : Option (String × Option String) :=
    let nameEnd : Option (List Char × List Char) :=
      match l with
      | '*' :: '*' :: rest =>
        let w := rest.takeWhile isWordC
        if w.isEmpty then Option.none else some ('*' :: '*' :: w, rest.drop w.length)
      | '*' :: rest =>
        let w := rest.takeWhile isWordC
        if w.isEmpty then Option.none else some ('*' :: w, rest.drop w.length)
      | c :: rest =>
        if isAlphaC c || c = '_' then some (c :: rest.takeWhile isWordC, rest.drop (rest.takeWhile isWordC).length)
        else Option.none
      | [] => Option.none
    match nameEnd with
    | some (nm, after) =>
      (match after.dropWhile isPyWS with
       | ':' :: tail =>
         (match tail.dropWhile isPyWS with
          | d :: drest =>
            if (isAlphaC d || d = '_') && (drest.dropWhile isNumpyTypeC).isEmpty then
              some (String.mk nm, some (String.mk (d :: drest.takeWhile isNumpyTypeC)))
            else Option.none
          | [] => Option.none)
       | _ => Option.none)
    | Option.none => Option.none
  match first with
  | some r => some r
  | Option.none =>
    match l with
    | c :: rest =>
      if (isAlphaC c || c = '_') && (rest.dropWhile isNumpyTypeC).isEmpty then
        some (String.mk (c :: rest), Option.none)
      else Option.none
    | [] => Option.none

/-- The numpy `ITEM` callback with the `None` normalisation. -/
def numpyItemTrans (s : String) : Except PErr PVal :=
  match numpyItemMatch s with
  | some (name, ty) =>
    let ty := match ty with
              | some t => if t.data.all isPyWS then Option.none else some t
              | Option.none => Option.none
    .ok (PVal.item name ty "" [])
  | Option.none => .error .transform

/-- Python `repr` of a string, for the strings this pipeline stores
(printable ASCII plus tab/newline/carriage return). -/
def pyReprStr (s : String) : String :=
  let hasSq := s.data.contains squote
  let hasDq := s.data.contains '"'
  let q : Char := if hasSq && !hasDq then '"' else squote
  let esc : List Char := s.data.foldr (fun c acc =>
    if c = '\\' then '\\' :: '\\' :: acc
    else if c = q then '\\' :: q :: acc
    else if c = '\n' then '\\' :: 'n' :: acc
    else if c = '\r' then '\\' :: 'r' :: acc
    else if c = '\t' then '\\' :: 't' :: acc
    else c :: acc) []
  String.mk (q :: esc ++ [q])

/-- Python `repr` of a parsed value (namedtuple notation), used when
`Transformer.codeblock` receives two paragraph lists and no language
token and stores `str(args[0])` as the language. -/
def pyReprPVal : Nat → PVal → String
  | 0, _ => ""
  | _ + 1, .str s => pyReprStr s
  | _ + 1, .none => "None"
  | _ + 1, .bool b => if b then "True" else "False"
  | n + 1, .list xs => "[" ++ String.intercalate ", " (xs.map (pyReprPVal n)) ++ "]"
  | n + 1, .para ls =>
    "ParsedPara(lines=" ++ pyReprPVal n (.list ls) ++ ")"
  | n + 1, .code lang codes =>
    "ParsedCode(lang=" ++ (match lang with | some t => pyReprStr t | Option.none => "None")
      ++ ", codes=" ++ pyReprPVal n codes ++ ")"
  | n + 1, .todo t more =>
    "ParsedTodo(todo=" ++ pyReprStr t ++ ", more=" ++ pyReprPVal n (.list more) ++ ")"
  | n + 1, .item name ty desc more =>
    "ParsedItem(name=" ++ pyReprStr name ++ ", type="
      ++ (match ty with | some t => pyReprStr t | Option.none => "None")
      ++ ", desc=" ++ pyReprStr desc ++ ", more=" ++ pyReprPVal n (.list more) ++ ")"
  | n + 1, .sec title elems =>
    "ParsedSection(title=" ++ pyReprStr title ++ ", section=" ++ pyReprPVal n (.list elems) ++ ")"

/-- Arguments of the `paragraph` callback: a `para_line` result (the
line and whether more than one line break follows it), a nested
paragraph (a list of `ParsedPara`), or a nested codeblock. -/
inductive PArg where
  | line (s : String) (newpara : Bool)
  | nestedParas (ps : List PVal)
  | nestedCode (lang : Option String) (codes : PVal)
deriving Repr

/-- Python `paras[-1].append(v)`. -/
def appendLast (paras : List (List PVal)) (v : PVal) : List (List PVal) :=
  match paras with
  | [] => [[v]]
  | _ => paras.dropLast ++ [paras.getLastD [] ++ [v]]

/-- The loop body of the `paragraph` callback: group lines into
paragraphs, starting a new group after every line followed by more than
one line break; a nested paragraph list is appended as one group of its
own; a nested `ParsedCode` goes through Python tuple unpacking
(`line, newpara = line`), which turns its language into a line and its
code body's truthiness into the new-paragraph flag. -/
def paragraphGo : List PArg → List (List PVal) → Bool → List (List PVal)
  | [], paras, _ => paras
  | .nestedParas ps :: rest, paras, _ => paragraphGo rest (paras ++ [ps]) true
  | .nestedCode lang codes :: rest, paras, started =>
    let lv : PVal := match lang with | some s => .str s | Option.none => .none
    let paras := if started then paras ++ [[lv]] else appendLast paras lv
    paragraphGo rest paras (pvTruthy codes)
  | .line s b :: rest, paras, started =>
    let paras := if started then paras ++ [[PVal.str s]] else appendLast paras (PVal.str s)
    paragraphGo rest paras b

/-- The `paragraph` callback. -/
def paragraphTrans (args : List PArg) : List PVal :=
  (paragraphGo args [] true).map PVal.para

/-- The `codeblock` callback.  Its Python body distinguishes only
`len(args) == 2` (unpacked as language and paragraph list) from any
other arity (`lang = None; paras = args[0]`), which produces odd stored
values when the fenced body parses into more than one `paragraph`
node. -/
def codeblockTrans (lang : Option String) (paras : List (List PVal)) : Except PErr PVal :=
  match lang, paras with
  | some l, [p] => .ok (PVal.code (some l) (PVal.list p))
  | Option.none, [p] => .ok (PVal.code Option.none (PVal.list p))
  | Option.none, [p1, p2] => .ok (PVal.code (some (pyReprPVal 99 (PVal.list p1))) (PVal.list p2))
  | some l, _ :: _ :: _ => .ok (PVal.code Option.none (PVal.str l))
  | Option.none, p1 :: _ :: _ :: _ => .ok (PVal.code Option.none (PVal.list p1))
  | _, [] => .error .transform

/-! The grammar engine.  The three grammars share every production
except the section-header terminal and the `ITEM` terminal/callback
(`GoogleParser.GRAMMER`, `LiquidpyParser.GRAMMER`,
`NumpyParser.GRAMMER`):

    start:      section+
    section:    [_NL] SECTION_TITLE (":")? _NL _INDENT subtree+ _DEDENT
                (numpy: _INDENT? subtree+ _DEDENT?, and the two-line
                 SECTION_TITLE swallows the newline between title and
                 underline, so that newline never reaches the Indenter)
    subtree:    todo_tree | item_tree | paragraph | codeblock
    todo_tree:  TODO _NL [_INDENT subtree+ _DEDENT]
    item_tree:  ITEM _NL [_INDENT subtree+ _DEDENT]
    paragraph:  para_line+ [_INDENT (codeblock | paragraph)+ _DEDENT]
    codeblock:  _CODETAG LANG? _NL _INDENT? paragraph+ _DEDENT? _CODETAG _NL?
    para_line:  /.+/ _NL

The contextual (LALR-state-driven) lexer means a content line is
classified by the terminals acceptable where it is consumed: section
headers are only recognised at the top level — for numpy also at the
element boundaries of a section body, since numpy's optional _DEDENT
lets the parser close a section there — and inside a code fence only
`para_line` and `_CODETAG` are acceptable, so marker lines inside code
stay plain text. -/

/-- Per-convention strategy: header lexing, item lexing/parsing, title
normalisation and the two grammar relaxations of the numpy style. -/
structure Conv where
  titleOneLine : List Char → Option String
  titleTwoLine : RawLine → Option RawLine → Option String
  itemTok : List Char → Bool → Bool
  itemTrans : String → Except PErr PVal
  secTitle : String → String
  numpyStyle : Bool

/-- Parser state: the remaining content lines, the `Indenter` stack and
the INDENT/DEDENT tokens already emitted but not yet consumed. -/
structure PState where
  lines : List RawLine
  stack : List Nat
  pending : List PreTok
deriving Repr

/-- Produce the next token of the postlexed stream.  Consuming a
content line eagerly performs the `Indenter` transition of the newline
run that follows it, exactly as the postlex emits the `_NL` token and
its INDENT/DEDENTs before the next content token is lexed. -/
def PState.next (st : PState) : Except PErr (Option (PreTok × PState)) :=
  match st.pending with
  | t :: ps => .ok (some (t, { st with pending := ps }))
  | [] =>
    match st.lines with
    | [] =>
      match st.stack with
      | _ :: _ :: _ => .ok (some (.dedentT, { st with stack := st.stack.tail }))
      | _ => .ok Option.none
    | l :: rest =>
      let tok := PreTok.content l.indent l.content l.breaks l.nextWS
      if l.breaks = 0 then
        .ok (some (tok, { st with lines := rest }))
      else
        let nextInd := match rest with | nx :: _ => nx.indent | [] => 0
        match nlTransition st.stack nextInd with
        | some (stk, toks) => .ok (some (tok, { lines := rest, stack := stk, pending := toks }))
        | Option.none => .error .lex

/-- Whether a numpy section header starts at the current position (used
to stop a body or a paragraph at a section boundary where the
contextual lexer accepts `SECTION_TITLE`). -/
def titleAhead (cv : Conv) (st : PState) : Bool :=
  cv.numpyStyle && st.pending.isEmpty &&
  (match st.lines with
   | l :: rest => (cv.titleTwoLine l rest.head?).isSome
   | [] => false)

mutual

/-- Parse `subtree+` inside a section body or a nested block, stopping
at a DEDENT, at end of input, or (when `canTitle`, after the first
element) at a numpy section header.  Paragraph results are lists of
`ParsedPara` and are spliced into the result as `_flatten_tree` does;
the other subtrees contribute one element each. -/
def parseSubtrees (cv : Conv) : Nat → PState → Bool → Bool → List PVal →
    Except PErr (List PVal × PState)
  | 0, _, _, _, _ => .error .fuel
  | n + 1, st, canTitle, first, acc =>
    match st.next with
    | .error e => .error e
    | .ok Option.none => .ok (acc, st)
    | .ok (some (tok, _)) =>
      match tok with
      | .dedentT => .ok (acc, st)
      | .indentT => .error .parse
      | .content _ c _ nextWS =>
        if canTitle && !first && titleAhead cv st then .ok (acc, st)
        else if todoTok c then
          match parseMarkerTree cv n st (todoTrans c) with
          | .ok (v, st') => parseSubtrees cv n st' canTitle false (acc ++ [v])
          | .error e => .error e
        else if cv.itemTok c nextWS then
          match cv.itemTrans (String.mk c) with
          | .ok v =>
            (match parseMarkerTree cv n st v with
             | .ok (v', st') => parseSubtrees cv n st' canTitle false (acc ++ [v'])
             | .error e => .error e)
          | .error e => .error e
        else if startsFence c then
          match parseCodeblock cv n st with
          | .ok (v, st') => parseSubtrees cv n st' canTitle false (acc ++ [v])
          | .error e => .error e
        else
          match parseParagraph cv n st false canTitle with
          | .ok (ps, st') => parseSubtrees cv n st' canTitle false (acc ++ ps)
          | .error e => .error e

/-- Parse a `todo_tree` or `item_tree`: the marker line (already
transformed into `v`), its `_NL`, and the optional indented block of
subtrees which `todo_tree`/`item_tree` extend into `more`. -/
def parseMarkerTree (cv : Conv) : Nat → PState → PVal → Except PErr (PVal × PState)
  | 0, _, _ => .error .fuel
  | n + 1, st, v =>
    match st.next with
    | .error e => .error e
    | .ok (some (.content _ _ brk _, st1)) =>
      if brk = 0 then .error .parse
      else
        (match st1.next with
         | .error e => .error e
         | .ok (some (.indentT, st2)) =>
           (match parseSubtrees cv n st2 false true [] with
            | .ok (subs, st3) =>
              if subs.isEmpty then .error .parse
              else
                (match st3.next with
                 | .ok (some (.dedentT, st4)) =>
                   (match v with
                    | .todo t more => .ok (.todo t (more ++ subs), st4)
                    | .item nm ty ds more => .ok (.item nm ty ds (more ++ subs), st4)
                    | _ => .error .transform)
                 | .ok _ => .error .parse
                 | .error e => .error e)
            | .error e => .error e)
         | _ => .ok (v, st1))
    | _ => .error .parse

/-- Parse a `paragraph`: one or more `para_line`s (each recording
whether more than one newline follows it), then the optional indented
block of nested codeblocks/paragraphs, all fed to the `paragraph`
callback.  Inside a code fence only the closing `_CODETAG` ends the
line run; outside, a TODO/ITEM/fence line (or a numpy section header,
when acceptable) starts a new subtree instead. -/
def parseParagraph (cv : Conv) : Nat → PState → Bool → Bool →
    Except PErr (List PVal × PState)
  | 0, _, _, _ => .error .fuel
  | n + 1, st, inCode, canTitle =>
    match parseParaLines cv n st inCode canTitle [] with
    | .error e => .error e
    | .ok (args, st1) =>
      match st1.next with
      | .error e => .error e
      | .ok (some (.indentT, st2)) =>
        (match parseNested cv n st2 inCode [] with
         | .ok (nargs, st3) => .ok (paragraphTrans (args ++ nargs), st3)
         | .error e => .error e)
      | _ => .ok (paragraphTrans args, st1)

/-- Collect the `para_line+` run of a paragraph. -/
def parseParaLines (cv : Conv) : Nat → PState → Bool → Bool → List PArg →
    Except PErr (List PArg × PState)
  | 0, _, _, _, _ => .error .fuel
  | n + 1, st, inCode, canTitle, acc =>
    match st.next with
    | .error e => .error e
    | .ok (some (.content _ c brk nextWS, st1)) =>
      let stops :=
        if inCode then startsFence c
        else todoTok c || cv.itemTok c nextWS || startsFence c ||
             (canTitle && titleAhead cv st)
      if stops then
        if acc.isEmpty then .error .parse else .ok (acc, st)
      else if brk = 0 then .error .parse
      else parseParaLines cv n st1 inCode canTitle (acc ++ [.line (String.mk c) (brk > 1)])
    | _ => if acc.isEmpty then .error .parse else .ok (acc, st)

/-- Parse the `(codeblock | paragraph)+ _DEDENT` nested block of a
paragraph, already past its `_INDENT`. -/
def parseNested (cv : Conv) : Nat → PState → Bool → List PArg →
    Except PErr (List PArg × PState)
  | 0, _, _, _ => .error .fuel
  | n + 1, st, inCode, acc =>
    match st.next with
    | .error e => .error e
    | .ok (some (.dedentT, st1)) =>
      if acc.isEmpty then .error .parse else .ok (acc, st1)
    | .ok (some (.content _ c _ _, _)) =>
      if startsFence c then
        match parseCodeblock cv n st with
        | .ok (PVal.code lang codes, st') => parseNested cv n st' inCode (acc ++ [.nestedCode lang codes])
        | .ok _ => .error .transform
        | .error e => .error e
      else
        match parseParagraph cv n st inCode false with
        | .ok (ps, st') => parseNested cv n st' inCode (acc ++ [.nestedParas ps])
        | .error e => .error e
    | _ => .error .parse

/-- Parse a `codeblock`: the opening fence with optional language, the
optional `_INDENT`, `paragraph+`, the optional `_DEDENT` and the
closing fence.  A closing fence with trailing non-whitespace text is
rejected here (lark would close the fence and lex the trailing text as
the start of a new element on the same line; no input verified in this
file contains such a line). -/
def parseCodeblock (cv : Conv) : Nat → PState → Except PErr (PVal × PState)
  | 0, _ => .error .fuel
  | n + 1, st =>
    match st.next with
    | .error e => .error e
    | .ok (some (.content _ c brk _, st1)) =>
      (match codeOpenTok c with
       | Option.none => .error .lex
       | some lang =>
         if brk = 0 then .error .parse
         else
           let step2 : Except PErr PState :=
             match st1.next with
             | .ok (some (.indentT, st2)) => .ok st2
             | .ok _ => .ok st1
             | .error e => .error e
           match step2 with
           | .error e => .error e
           | .ok st2 =>
             (match parseCodeParas cv n st2 [] with
              | .error e => .error e
              | .ok (paras, st3) =>
                (match st3.next with
                 | .ok (some (.content _ c2 _ _, st4)) =>
                   if codeCloseTok c2 then
                     (match codeblockTrans lang paras with
                      | .ok v => .ok (v, st4)
                      | .error e => .error e)
                   else .error .parse
                 | .ok _ => .error .parse
                 | .error e => .error e)))
    | _ => .error .parse

/-- Parse the `paragraph+ _DEDENT?` body of a codeblock (each
`paragraph` node yields one list of `ParsedPara`). -/
def parseCodeParas (cv : Conv) : Nat → PState → List (List PVal) →
    Except PErr (List (List PVal) × PState)
  | 0, _, _ => .error .fuel
  | n + 1, st, acc =>
    match st.next with
    | .error e => .error e
    | .ok (some (.content _ c _ _, _)) =>
      if startsFence c then
        if acc.isEmpty then .error .parse else .ok (acc, st)
      else
        (match parseParagraph cv n st true false with
         | .ok (ps, st') => parseCodeParas cv n st' (acc ++ [ps])
         | .error e => .error e)
    | .ok (some (.dedentT, st1)) =>
      if acc.isEmpty then .error .parse else .ok (acc, st1)
    | _ => .error .parse

end

/-- Parse the body of a section after its header (and, for the
column-indented grammars, after its mandatory `_INDENT`), then the
closing `_DEDENT` (optional for numpy). -/
def parseSectionBody (cv : Conv) (n : Nat) (st : PState) (title : String) :
    Except PErr (PVal × PState) :=
  -- numpy bodies may start unindented; consume an INDENT if present
  let start : Except PErr PState :=
    if cv.numpyStyle then
      match st.next with
      | .ok (some (.indentT, st1)) => .ok st1
      | .ok _ => .ok st
      | .error e => .error e
    else .ok st
  match start with
  | .error e => .error e
  | .ok st1 =>
    match parseSubtrees cv n st1 cv.numpyStyle true [] with
    | .error e => .error e
    | .ok (subs, st2) =>
      if subs.isEmpty then .error .parse
      else
        let v := PVal.sec (cv.secTitle title) subs
        if cv.numpyStyle then
          match st2.next with
          | .ok (some (.dedentT, st3)) => .ok (v, st3)
          | .ok _ => .ok (v, st2)
          | .error e => .error e
        else
          match st2.next with
          | .ok (some (.dedentT, st3)) => .ok (v, st3)
          | .ok _ => .error .parse
          | .error e => .error e

/-- Parse one `section`. -/
def parseSection (cv : Conv) (n : Nat) (st : PState) : Except PErr (PVal × PState) :=
  if cv.numpyStyle then
    match st.pending with
    | [] =>
      (match st.lines with
       | l :: rest =>
         (match cv.titleTwoLine l rest.head? with
          | some title =>
            (match rest with
             | l2 :: rest2 =>
               if l2.breaks = 0 then .error .parse
               else
                 let nextInd := match rest2 with | nx :: _ => nx.indent | [] => 0
                 (match nlTransition st.stack nextInd with
                  | some (stk, toks) =>
                    parseSectionBody cv n { lines := rest2, stack := stk, pending := toks } title
                  | Option.none => .error .lex)
             | [] => .error .parse)
          | Option.none => .error .lex)
       | [] => .error .parse)
    | _ => .error .parse
  else
    match st.next with
    | .error e => .error e
    | .ok (some (.content _ c brk _, st1)) =>
      (match cv.titleOneLine c with
       | some title =>
         if brk = 0 then .error .parse
         else
           (match st1.next with
            | .ok (some (.indentT, st2)) => parseSectionBody cv n st2 title
            | .ok _ => .error .parse
            | .error e => .error e)
       | Option.none => .error .lex)
    | _ => .error .parse

/-- Parse `start: section+` to the end of the input. -/
def parseDoc (cv : Conv) : Nat → PState → List PVal → Except PErr (List PVal)
  | 0, _, _ => .error .fuel
  | n + 1, st, acc =>
    match parseSection cv n st with
    | .error e => .error e
    | .ok (s, st') =>
      match st'.next with
      | .error e => .error e
      | .ok Option.none => .ok (acc ++ [s])
      | .ok (some _) => parseDoc cv n st' (acc ++ [s])

/-- The `start` callback plus the single-section case of `_parse`:
store each section under its title in an ordered mapping (assignment
replaces in place, so a duplicated title keeps its first position). -/
def docOfSections (ss : List PVal) : Doc :=
  ss.foldl (fun d s =>
    match s with
    | PVal.sec t _ => docSet d t s
    | _ => d) []

/-- Run the lexer, the `Indenter` and the grammar on a preprocessed
text. -/
def runParse (cv : Conv) (pre : String) : Except PErr (List PVal) :=
  let lx := lexText pre
  let fuel := 16 * (lx.lines.length + 4)
  match lx.lines with
  | [] => .error .parse
  | l :: _ =>
    if lx.leadingBreaks = 0 then
      parseDoc cv fuel { lines := lx.lines, stack := [0], pending := [] } []
    else
      match nlTransition [0] l.indent with
      | some (stk, toks) =>
        parseDoc cv fuel { lines := lx.lines, stack := stk, pending := toks } []
      | Option.none => .error .lex

/-- Per-convention strategies. -/
def googleConv : Conv where
  titleOneLine := googleTitleTok
  titleTwoLine := fun _ _ => Option.none
  itemTok := fun c _ => googleItemTok c
  itemTrans := googleItemTrans
  secTitle := id
  numpyStyle := false

def liquidConv : Conv where
  titleOneLine := liquidTitleTok
  titleTwoLine := fun _ _ => Option.none
  itemTok := fun c _ => liquidItemTok c
  itemTrans := liquidItemTrans
  -- `_LiquidpyTransformer.section` strips the at sign: `str(title)[1:]`
  secTitle := fun t => String.mk (t.data.drop 1)
  numpyStyle := false

def numpyConv : Conv where
  titleOneLine := fun _ => Option.none
  titleTwoLine := numpyTitleTok
  itemTok := numpyItemTok
  itemTrans := numpyItemTrans
  -- `_NumpyTransformer.section` keeps `str(title).splitlines()[0]`,
  -- which is exactly the line `numpyTitleTok` returns
  secTitle := id
  numpyStyle := true

/-! Preprocessing (`_preprocess` of each parser class). -/

def INDENT_BASE : String := "    "
def INDENT_BASE_MD : String := "  "
def SUMMARY : String := "SUMMARY"

/-- The body loop of `GoogleParser._preprocess`: each line is
right-stripped and indented one level unless it is empty; at the first
line matching the section-header pattern, the remaining original lines
are appended unchanged and the loop stops. -/
def googlePreLoop : List String → List String
  | [] => []
  | line :: rest =>
    let l := pyRstrip line
    if googleHeaderMatch l.data then line :: rest
    else (if l = "" then "" else INDENT_BASE ++ l) :: googlePreLoop rest

/-- `GoogleParser._preprocess`: wrap the leading text into a synthetic
`SUMMARY:` section; the first line keeps its own indentation while the
remaining lines are dedented together first. -/
def googlePreprocess (text : String) : String :=
  match pySplitlines text with
  | [] => "\n"
  | first :: rest =>
    let lines := pySplitlines (pyDedent (joinNL rest))
    let pre := [SUMMARY ++ ":", INDENT_BASE ++ first] ++ googlePreLoop lines
    pyRstrip (joinNL pre) ++ "\n"

/-- The body loop of `LiquidpyParser._preprocess`. -/
def liquidPreLoop : List String → List String
  | [] => []
  | line :: rest =>
    let l := pyRstrip line
    if liquidHeaderMatch l.data then line :: rest
    else (if l = "" then "" else INDENT_BASE ++ l) :: liquidPreLoop rest

/-- `LiquidpyParser._preprocess`: returns the preprocessed text and the
`API` flag; the flag is set exactly when the first line is the literal
`@API`, in which case (or when the first line is empty) the next
dedented line takes its place as the summary line. -/
def liquidPreprocess (text : String) : String × Bool :=
  match pySplitlines text with
  | [] => ("\n", false)
  | first :: rest =>
    let lines := pySplitlines (pyDedent (joinNL rest))
    let api := first = "@API"
    let fl :=
      if first = "" || api then
        match lines with
        | [] => ("", ([] : List String))
        | l :: ls => (l, ls)
      else (first, lines)
    let pre := ["@" ++ SUMMARY ++ ":", INDENT_BASE ++ fl.1] ++ liquidPreLoop fl.2
    (pyRstrip (joinNL pre) ++ "\n", api)

/-- `NumpyParser._preprocess`: prepend a dash-underlined `SUMMARY`
header; the body lines are dedented together, with no per-line
indenting. -/
def numpyPreprocess (text : String) : String :=
  match pySplitlines text with
  | [] => "\n"
  | first :: rest =>
    let lines := pySplitlines (pyDedent (joinNL rest))
    let pre := [SUMMARY, "-------", first] ++ lines
    pyRstrip (joinNL pre) ++ "\n"

/-! Alias resolution and `_parse`. -/

/-- The section alias table (identical in `default.py`, `google.py`,
`numpy.py`; `liquidpy.py` has no alias handling). -/
def ALIASES : List (String × String) :=
  [("Args", "Parameters"), ("Arguments", "Parameters"),
   ("Keyword Args", "Keyword Arguments"), ("Return", "Returns"),
   ("Warnings", "Warning"), ("Yield", "Yields")]

/-- The alias loop of `_parse`: for every alias present among the keys,
fail when its canonical title is already present, otherwise store the
alias's section under the canonical title as well.  Python iterates the
aliases as a set; whether the loop raises, and which entries end up in
the mapping, do not depend on that iteration order (the canonical
titles of distinct aliases only collide when both aliases of
`Parameters` are present, and then either order raises), so the table
order is used here. -/
def aliasResolve : List (String × String) → Doc → Except PErr Doc
  | [], d => .ok d
  | (al, std) :: rest, d =>
    if docHas d al then
      if docHas d std then .error (.dup al std)
      else
        match docGet d al with
        | some v => aliasResolve rest (docSet d std v)
        | Option.none => aliasResolve rest d
    else aliasResolve rest d

/-- `GoogleParser._parse`: empty preprocessed text gives an empty
mapping, otherwise the grammar runs; then aliases are resolved. -/
def googleParsePre (pre : String) : Except PErr Doc :=
  match (if pre = "\n" then .ok [] else runParse googleConv pre) with
  | .ok secs => aliasResolve ALIASES (docOfSections secs)
  | .error e => .error e

/-- `NumpyParser._parse`. -/
def numpyParsePre (pre : String) : Except PErr Doc :=
  match (if pre = "\n" then .ok [] else runParse numpyConv pre) with
  | .ok secs => aliasResolve ALIASES (docOfSections secs)
  | .error e => .error e

/-- `LiquidpyParser._parse`: no alias resolution; the `API` flag is
stored in the mapping after the sections. -/
def liquidParsePre (pa : String × Bool) : Except PErr Doc :=
  match (if pa.1 = "\n" then .ok [] else runParse liquidConv pa.1) with
  | .ok secs => .ok (docSet (docOfSections secs) "API" (PVal.bool pa.2))
  | .error e => .error e

/-- Parsing from raw text (preprocess then `_parse`), without the
memoization layer. -/
def googleParse (text : String) : Except PErr Doc := googleParsePre (googlePreprocess text)
def numpyParse (text : String) : Except PErr Doc := numpyParsePre (numpyPreprocess text)
def liquidParse (text : String) : Except PErr Doc := liquidParsePre (liquidPreprocess text)

/-! The memoizing `Parser.parse` (`default.py` lines 441-459).  The
Python cache key is `sha256(str(preprocessed)).hexdigest()`; the digest
is collision-free on these inputs, so the embedding keys the cache by
`str(preprocessed)` itself — equal keys correspond exactly to equal
preprocessed inputs. -/

abbrev Cache := List (String × Doc)

def cacheGet (c : Cache) (k : String) : Option Doc :=
  match c with
  | [] => Option.none
  | (k2, v) :: rest => if k2 = k then some v else cacheGet rest k

def cacheSet (c : Cache) (k : String) (v : Doc) : Cache :=
  match c with
  | [] => [(k, v)]
  | (k2, v2) :: rest => if k2 = k then (k, v) :: rest else (k2, v2) :: cacheSet rest k v

/-- Python `str` of the liquidpy preprocess result, a
`(string, bool)` tuple. -/
def tupleKey (pa : String × Bool) : String :=
  "(" ++ pyReprStr pa.1 ++ ", " ++ (if pa.2 then "True" else "False") ++ ")"

/-- `Parser.parse`: preprocess, look the key up in the per-instance
cache and return the stored document on a hit; on a miss run `_parse`
and store the result — the store happens only after `_parse` returns,
so a raised error leaves the cache unchanged. -/
def parseCachedWith (key : String) (run : Unit → Except PErr Doc)
    (cache : Cache) : Cache × Except PErr Doc :=
  match cacheGet cache key with
  | some d => (cache, .ok d)
  | Option.none =>
    match run () with
    | .ok d => (cacheSet cache key d, .ok d)
    | .error e => (cache, .error e)

/-- `google_parser.parse` with its cache. -/
def googleParseCached (cache : Cache) (text : String) : Cache × Except PErr Doc :=
  let pre := googlePreprocess text
  parseCachedWith pre (fun _ => googleParsePre pre) cache

/-- `numpy_parser.parse` with its cache. -/
def numpyParseCached (cache : Cache) (text : String) : Cache × Except PErr Doc :=
  let pre := numpyPreprocess text
  parseCachedWith pre (fun _ => numpyParsePre pre) cache

/-- `liquidpy_parser.parse` with its cache. -/
def liquidParseCached (cache : Cache) (text : String) : Cache × Except PErr Doc :=
  let pa := liquidPreprocess text
  parseCachedWith (tupleKey pa) (fun _ => liquidParsePre pa) cache

/-! Text rendering.  Each parser class carries its own static
`_format_element` (google.py 226-310, liquidpy.py 219-303,
numpy.py 230-313); the three bodies are identical except for the item
header line, the section header and the section body indent/blank-line
rule, so the shared part is written once and parameterised by those
four differences.  (The base-class `Parser._format_item`/`_format_todo`
in default.py 238-296 produce the same lines as the google
instantiation; `Parser._format_section` has an empty body and the base
text path is never used by the three parsers.) -/

/-- Rendering errors: `KeyError` from `FORMATTER_ROUTER` lookup on an
unexpected element type (markdown path), `TypeError`-like failures
(string concatenation with a non-string, `IndexError`), and fuel
exhaustion of the embedding. -/
inductive RErr where
  | keyErr
  | typeErr
  | fuel
deriving Repr, DecidableEq

/-- Python truthiness of the `type` field (`if elem.type:`). -/
def tyTruthy : Option String → Bool
  | some t => t ≠ ""
  | Option.none => false

/-- Python `elem.lang or ""`. -/
def langOrEmpty : Option String → String
  | some l => l
  | Option.none => ""

/-- Python `enumerate(elem.codes)`: the codes field is a list of parsed
paragraphs or (after a degenerate `codeblock` transform) a token
string, whose characters Python would iterate. -/
def iterCodes : PVal → List PVal
  | .list xs => xs
  | .str s => s.data.map (fun c => .str (String.mk [c]))
  | v => [v]

/-- `isinstance(sec, (ParsedCode, ParsedPara))`. -/
def isCodeOrPara : PVal → Bool
  | .code _ _ => true
  | .para _ => true
  | _ => false

/-- `getattr(x, 'more', None)` truthiness for the previous element. -/
def getattrMore : Option PVal → Bool
  | some (.todo _ m) => !m.isEmpty
  | some (.item _ _ _ m) => !m.isEmpty
  | _ => false

/-- The per-convention differences of the text `_format_element`
bodies. -/
structure FmtConv where
  /-- the item header line from indent, name, type, description -/
  itemLine : String → String → Option String → String → String
  /-- the section header line(s) from indent and title -/
  secHeader : String → String → List String
  /-- the body indent of a non-`SUMMARY` section from indent and
  indent base -/
  secChildIndent : String → String → String
  /-- whether the blank-line rule for section elements also looks at
  the previous element's `more` (google/liquidpy do, numpy does not) -/
  secLeadUsesPrevMore : Bool

mutual

/-- The static `_format_element` of a parser class, on one element. -/
def fmtEl (fc : FmtConv) : Nat → PVal → String → Bool → String → Except RErr (List String)
  | 0, _, _, _, _ => .error .fuel
  | n + 1, elem, indent, lead, base =>
    let leadL : List String := if lead then [""] else []
    match elem with
    | .para lines => fmtParaGo fc n lines indent lead base 0 leadL
    | .code lang codes =>
      (match fmtCodesGo fc n (iterCodes codes) indent base 0 with
       | .ok body =>
         .ok (leadL ++ [indent ++ "```" ++ langOrEmpty lang] ++ body ++ [indent ++ "```"])
       | .error e => .error e)
    | .todo t more =>
      (match fmtMoreGo fc n more (indent ++ base) base 0 with
       | .ok body => .ok (leadL ++ [indent ++ "- " ++ t] ++ body)
       | .error e => .error e)
    | .item name ty desc more =>
      (match fmtMoreGo fc n more (indent ++ base) base 0 with
       | .ok body => .ok (leadL ++ [fc.itemLine indent name ty desc] ++ body)
       | .error e => .error e)
    | .sec title elems =>
      if title = SUMMARY then
        let rest := elems.drop 1
        (match elems with
         | .para ls :: _ =>
           if ls.isEmpty then
             fmtSecGo fc n (PVal.list elems :: rest) elems 0 indent base true leadL
           else
             (match ls with
              | .str s0 :: ls' =>
                fmtSecGo fc n (PVal.para ls' :: rest) elems 0 indent base true (leadL ++ [s0])
              | _ => .error .typeErr)
         | _ :: _ => fmtSecGo fc n (PVal.list elems :: rest) elems 0 indent base true leadL
         | [] => fmtSecGo fc n [] elems 0 indent base true leadL)
      else
        fmtSecGo fc n elems elems 0 indent base false (leadL ++ fc.secHeader indent title)
    | _ => .ok leadL
  termination_by structural n => n

/-- The paragraph-lines loop: plain lines are indented, a nested
`ParsedPara` recurses one level deeper; a leading blank line that is
still alone is dropped when the first entry is itself a paragraph. -/
def fmtParaGo (fc : FmtConv) : Nat → List PVal → String → Bool → String → Nat →
    List String → Except RErr (List String)
  | 0, _, _, _, _, _, _ => .error .fuel
  | _ + 1, [], _, _, _, _, acc => .ok acc
  | n + 1, line :: rest, indent, lead, base, i, acc =>
    match line with
    | .para ls =>
      let acc := if i = 0 && lead && acc.length = 1 then [] else acc
      (match fmtEl fc n (.para ls) (indent ++ base) (i > 0) base with
       | .ok out => fmtParaGo fc n rest indent lead base (i + 1) (acc ++ out)
       | .error e => .error e)
    | .str s => fmtParaGo fc n rest indent lead base (i + 1) (acc ++ [indent ++ s])
    | _ => .error .typeErr
  termination_by structural n => n

/-- The codes loop of the code-block branch (no extra indent, blank
line before every paragraph but the first). -/
def fmtCodesGo (fc : FmtConv) : Nat → List PVal → String → String → Nat →
    Except RErr (List String)
  | 0, _, _, _, _ => .error .fuel
  | _ + 1, [], _, _, _ => .ok []
  | n + 1, c :: rest, indent, base, i =>
    match fmtEl fc n c indent (i > 0) base with
    | .ok out =>
      (match fmtCodesGo fc n rest indent base (i + 1) with
       | .ok out2 => .ok (out ++ out2)
       | .error e => .error e)
    | .error e => .error e
  termination_by structural n => n

/-- The children loop of the todo/item branches. -/
def fmtMoreGo (fc : FmtConv) : Nat → List PVal → String → String → Nat →
    Except RErr (List String)
  | 0, _, _, _, _ => .error .fuel
  | _ + 1, [], _, _, _ => .ok []
  | n + 1, m :: rest, indent, base, i =>
    match fmtEl fc n m indent (i ≠ 0) base with
    | .ok out =>
      (match fmtMoreGo fc n rest indent base (i + 1) with
       | .ok out2 => .ok (out ++ out2)
       | .error e => .error e)
    | .error e => .error e
  termination_by structural n => n

/-- The section-elements loop.  The blank-line flag of element `i`
consults the element's own kind and (google/liquidpy) the `more` field
of `elem.section[i-1]` — the original element list, not the modified
one being iterated. -/
def fmtSecGo (fc : FmtConv) : Nat → List PVal → List PVal → Nat → String → String →
    Bool → List String → Except RErr (List String)
  | 0, _, _, _, _, _, _, _ => .error .fuel
  | _ + 1, [], _, _, _, _, _, acc => .ok acc
  | n + 1, s :: rest, orig, i, indent, base, isSum, acc =>
    let lead := i ≠ 0 &&
      (isCodeOrPara s || (fc.secLeadUsesPrevMore && getattrMore (orig.get? (i - 1))))
    match fmtEl fc n s (if isSum then indent else fc.secChildIndent indent base) lead base with
    | .ok out => fmtSecGo fc n rest orig (i + 1) indent base isSum (acc ++ out)
    | .error e => .error e
  termination_by structural n => n

end

/-- `GoogleParser._format_element` instantiation. -/
def googleFmtConv : FmtConv where
  itemLine := fun indent name ty desc =>
    if tyTruthy ty then indent ++ name ++ " (" ++ langOrEmpty ty ++ "): " ++ desc
    else indent ++ name ++ ": " ++ desc
  secHeader := fun indent title => [indent ++ title ++ ":"]
  secChildIndent := fun indent base => indent ++ base
  secLeadUsesPrevMore := true

/-- `LiquidpyParser._format_element` instantiation (the section header
carries the at sign). -/
def liquidFmtConv : FmtConv where
  itemLine := fun indent name ty desc =>
    if tyTruthy ty then indent ++ name ++ " (" ++ langOrEmpty ty ++ "): " ++ desc
    else indent ++ name ++ ": " ++ desc
  secHeader := fun indent title => [indent ++ "@" ++ title ++ ":"]
  secChildIndent := fun indent base => indent ++ base
  secLeadUsesPrevMore := true

/-- `NumpyParser._format_element` instantiation: the item header is
`name : type` (or the bare name), the section header is underlined,
section bodies stay at the section's own indent, and the blank-line
rule ignores the previous element's `more`. -/
def numpyFmtConv : FmtConv where
  itemLine := fun indent name ty _ =>
    if tyTruthy ty then indent ++ name ++ " : " ++ langOrEmpty ty
    else indent ++ name
  secHeader := fun indent title =>
    [indent ++ title, indent ++ String.mk (List.replicate title.length '-')]
  secChildIndent := fun indent _ => indent
  secLeadUsesPrevMore := false

/-! Markdown rendering: the base-class `_format_*_markdown` family
(default.py 179-199, 219-236, 256-273, 298-319, 326-369) dispatched by
`_format_element_markdown` through `FORMATTER_ROUTER`; all three parser
classes inherit it unchanged.  Plain paragraph lines, checklist lines
and untyped item lines get two trailing spaces; a typed item line does
not (default.py 302-305 appends none). -/

/-- Python `'#' * heading`. -/
def headingMarks (h : Nat) : String := String.mk (List.replicate h '#')

mutual

/-- `Parser._format_element_markdown`: route on the element type; any
other type raises `KeyError` from the `FORMATTER_ROUTER` lookup. -/
def fmtElMd : Nat → PVal → String → Nat → Bool → String → Except RErr (List String)
  | 0, _, _, _, _, _ => .error .fuel
  | n + 1, elem, indent, heading, lead, base =>
    let leadL : List String := if lead then [""] else []
    match elem with
    | .para lines => fmtParaMdGo n lines indent heading lead base 0 leadL
    | .code lang codes =>
      (match fmtCodesMdGo n (iterCodes codes) indent heading base 0 with
       | .ok body =>
         .ok (leadL ++ [indent ++ "```" ++ langOrEmpty lang] ++ body ++ [indent ++ "```"])
       | .error e => .error e)
    | .todo t more =>
      (match fmtMoreMdGo n more (indent ++ base) heading base 0 with
       | .ok body => .ok (leadL ++ [indent ++ "- " ++ t ++ "  "] ++ body)
       | .error e => .error e)
    | .item name ty desc more =>
      (match fmtMoreMdGo n more (indent ++ base) heading base 0 with
       | .ok body =>
         let line :=
           if tyTruthy ty then
             indent ++ "`" ++ name ++ "` (`" ++ langOrEmpty ty ++ "`): " ++ desc
           else indent ++ "`" ++ name ++ "`: " ++ desc ++ "  "
         .ok (leadL ++ [line] ++ body)
       | .error e => .error e)
    | .sec title elems =>
      if title = SUMMARY then
        let rest := elems.drop 1
        (match elems with
         | .para ls :: _ =>
           if ls.isEmpty then
             fmtSecMdGo n (PVal.list elems :: rest) elems 0 indent heading base true leadL
           else
             (match ls with
              | .str s0 :: ls' =>
                fmtSecMdGo n (PVal.para ls' :: rest) elems 0 indent heading base true
                  (leadL ++ [headingMarks heading ++ " " ++ s0])
              | _ => .error .typeErr)
         | _ :: _ => fmtSecMdGo n (PVal.list elems :: rest) elems 0 indent heading base true leadL
         | [] => fmtSecMdGo n [] elems 0 indent heading base true leadL)
      else
        fmtSecMdGo n elems elems 0 indent heading base false
          (leadL ++ [indent ++ headingMarks heading ++ " " ++ title ++ ":"])
    | _ => .error .keyErr
  termination_by structural n => n

/-- `Parser._format_para_markdown`: plain lines get the two trailing
spaces of a markdown hard line break. -/
def fmtParaMdGo : Nat → List PVal → String → Nat → Bool → String → Nat →
    List String → Except RErr (List String)
  | 0, _, _, _, _, _, _, _ => .error .fuel
  | _ + 1, [], _, _, _, _, _, acc => .ok acc
  | n + 1, line :: rest, indent, heading, lead, base, i, acc =>
    match line with
    | .para ls =>
      let acc := if i = 0 && lead && acc.length = 1 then [] else acc
      (match fmtElMd n (.para ls) (indent ++ base) heading (i > 0) base with
       | .ok out => fmtParaMdGo n rest indent heading lead base (i + 1) (acc ++ out)
       | .error e => .error e)
    | .str s => fmtParaMdGo n rest indent heading lead base (i + 1) (acc ++ [indent ++ s ++ "  "])
    | _ => .error .typeErr
  termination_by structural n => n

/-- The codes loop of `Parser._format_code_markdown`. -/
def fmtCodesMdGo : Nat → List PVal → String → Nat → String → Nat →
    Except RErr (List String)
  | 0, _, _, _, _, _ => .error .fuel
  | _ + 1, [], _, _, _, _ => .ok []
  | n + 1, c :: rest, indent, heading, base, i =>
    match fmtElMd n c indent heading (i > 0) base with
    | .ok out =>
      (match fmtCodesMdGo n rest indent heading base (i + 1) with
       | .ok out2 => .ok (out ++ out2)
       | .error e => .error e)
    | .error e => .error e
  termination_by structural n => n

/-- The children loop of `_format_todo_markdown`/`_format_item_markdown`. -/
def fmtMoreMdGo : Nat → List PVal → String → Nat → String → Nat →
    Except RErr (List String)
  | 0, _, _, _, _, _ => .error .fuel
  | _ + 1, [], _, _, _, _ => .ok []
  | n + 1, m :: rest, indent, heading, base, i =>
    match fmtElMd n m indent heading (i ≠ 0) base with
    | .ok out =>
      (match fmtMoreMdGo n rest indent heading base (i + 1) with
       | .ok out2 => .ok (out ++ out2)
       | .error e => .error e)
    | .error e => .error e
  termination_by structural n => n

/-- The section-elements loop of `Parser._format_section_markdown`. -/
def fmtSecMdGo : Nat → List PVal → List PVal → Nat → String → Nat → String →
    Bool → List String → Except RErr (List String)
  | 0, _, _, _, _, _, _, _, _ => .error .fuel
  | _ + 1, [], _, _, _, _, _, _, acc => .ok acc
  | n + 1, s :: rest, orig, i, indent, heading, base, isSum, acc =>
    let lead := i ≠ 0 && (isCodeOrPara s || getattrMore (orig.get? (i - 1)))
    match fmtElMd n s (if isSum then indent else indent ++ base) heading lead base with
    | .ok out => fmtSecMdGo n rest orig (i + 1) indent heading base isSum (acc ++ out)
    | .error e => .error e
  termination_by structural n => n

end

/-! Document-level rendering and the `format` entry point. -/

/-- `title` attribute access on a stored value; on a non-section Python
raises `AttributeError`. -/
def titleOf : PVal → Option String
  | .sec t _ => some t
  | _ => Option.none

/-- The entry loop of `_format` (google.py 312-326, numpy.py 315-329):
skip the canonical-title entries created for aliases (their stored
section keeps the alias title), render each remaining section with a
leading blank line unless it is the summary. -/
def fmtDocTextGo (fc : FmtConv) : Nat → Doc → String → String → Except RErr (List String)
  | 0, _, _, _ => .error .fuel
  | _ + 1, [], _, _ => .ok []
  | n + 1, (title, v) :: rest, indent, base =>
    match titleOf v with
    | Option.none => .error .typeErr
    | some t =>
      if title ≠ t then fmtDocTextGo fc n rest indent base
      else
        match fmtEl fc n v indent (t ≠ SUMMARY) base with
        | .ok out =>
          (match fmtDocTextGo fc n rest indent base with
           | .ok out2 => .ok (out ++ out2)
           | .error e => .error e)
        | .error e => .error e

/-- `_format` for google/numpy: join with newlines plus a final one. -/
def formatDocText (fc : FmtConv) (n : Nat) (d : Doc) (indent base : String) :
    Except RErr String :=
  match fmtDocTextGo fc n d indent base with
  | .ok parts => .ok (joinNL parts ++ "\n")
  | .error e => .error e

/-- The entry loop of `LiquidpyParser._format` (liquidpy.py 305-320):
iterate the stored values, skipping booleans. -/
def fmtDocLiquidGo : Nat → Doc → String → String → Except RErr (List String)
  | 0, _, _, _ => .error .fuel
  | _ + 1, [], _, _ => .ok []
  | n + 1, (_, v) :: rest, indent, base =>
    match v with
    | .bool _ => fmtDocLiquidGo n rest indent base
    | _ =>
      match titleOf v with
      | Option.none => .error .typeErr
      | some t =>
        match fmtEl liquidFmtConv n v indent (t ≠ SUMMARY) base with
        | .ok out =>
          (match fmtDocLiquidGo n rest indent base with
           | .ok out2 => .ok (out ++ out2)
           | .error e => .error e)
        | .error e => .error e

/-- `LiquidpyParser._format`: after rendering, a true `API` flag
prepends an `@API` line and prefixes the (now second) first line with
the base indent; with no rendered line that update raises
`IndexError`. -/
def liquidFormatDoc (n : Nat) (d : Doc) (indent base : String) : Except RErr String :=
  match fmtDocLiquidGo n d indent base with
  | .error e => .error e
  | .ok parts =>
    let api := match docGet d "API" with
               | some v => pvTruthy v
               | Option.none => false
    if api then
      match parts with
      | [] => .error .typeErr
      | p0 :: rest => .ok (joinNL ("@API" :: (indent ++ p0) :: rest) ++ "\n")
    else .ok (joinNL parts ++ "\n")

/-- The entry loop of the inherited `Parser._format_markdown`
(default.py 488-507); note it reads `.title` before any boolean check,
so a liquidpy document (which stores the `API` boolean) makes this path
raise `AttributeError`. -/
def fmtDocMdGo : Nat → Doc → Nat → String → String → Except RErr (List String)
  | 0, _, _, _, _ => .error .fuel
  | _ + 1, [], _, _, _ => .ok []
  | n + 1, (title, v) :: rest, heading, indent, base =>
    match titleOf v with
    | Option.none => .error .typeErr
    | some t =>
      if title ≠ t then fmtDocMdGo n rest heading indent base
      else
        match fmtElMd n v indent heading (t ≠ SUMMARY) base with
        | .ok out =>
          (match fmtDocMdGo n rest heading indent base with
           | .ok out2 => .ok (out ++ out2)
           | .error e => .error e)
        | .error e => .error e

/-- `Parser._format_markdown`. -/
def formatDocMd (n : Nat) (d : Doc) (heading : Nat) (indent base : String) :
    Except RErr String :=
  match fmtDocMdGo n d heading indent base with
  | .ok parts => .ok (joinNL parts ++ "\n")
  | .error e => .error e

/-- Rendering target of `Parser.format` (Python compares `to` against
the string `'text'` and treats anything else as markup). -/
inductive FmtTarget where
  | text
  | markdown
deriving Repr, DecidableEq

/-- `Parser.format` on an already-parsed document: pick the default
indent base for the target when none is given, then dispatch. -/
def formatDoc (fc : FmtConv) (n : Nat) (d : Doc) (tgt : FmtTarget) (heading : Nat)
    (indent : String) (indentBase : Option String) : Except RErr String :=
  let base := match indentBase with
              | some b => b
              | Option.none => if tgt = .text then INDENT_BASE else INDENT_BASE_MD
  match tgt with
  | .text => formatDocText fc n d indent base
  | .markdown => formatDocMd n d heading indent base

/-- `LiquidpyParser`'s `format`: its own `_format` for text, the
inherited `_format_markdown` otherwise. -/
def liquidFormatDocTop (n : Nat) (d : Doc) (tgt : FmtTarget) (heading : Nat)
    (indent : String) (indentBase : Option String) : Except RErr String :=
  let base := match indentBase with
              | some b => b
              | Option.none => if tgt = .text then INDENT_BASE else INDENT_BASE_MD
  match tgt with
  | .text => liquidFormatDoc n d indent base
  | .markdown => formatDocMd n d heading indent base

/-! Observers and auxiliary definitions used to state the claims. -/

/-- Whether a parse result is the duplicate-section `ValueError`. -/
def isDupErr : Except PErr Doc → Bool
  | .error (.dup _ _) => true
  | _ => false

/-- Whether the first line of a raw text is the literal `@API`. -/
def firstLineIsAPI (t : String) : Bool :=
  match pySplitlines t with
  | [] => false
  | f :: _ => f = "@API"

/-- Whether a rendered line ends with the two-space markdown hard line
break. -/
def endsTwoSpaces (s : String) : Bool :=
  match s.data.reverse with
  | ' ' :: ' ' :: _ => true
  | _ => false

/-- Whether `p` is a prefix of `s`. -/
def strStartsWith (s p : String) : Bool := p.data.isPrefixOf s.data

/-- The stored text of a checklist entry. -/
def todoTextOf : PVal → Option String
  | .todo t _ => some t
  | _ => Option.none

/-- The checklist text of the first element of the section stored
under `k`, when parsing succeeded and that element is a checklist
entry. -/
def firstTodoTextOf (r : Except PErr Doc) (k : String) : Option String :=
  match r with
  | .ok d =>
    (match docGet d k with
     | some (PVal.sec _ (e :: _)) => todoTextOf e
     | _ => Option.none)
  | .error _ => Option.none

/-- Modelled from the specification of paragraph splitting: group a run
of lines into paragraphs, beginning a new group after every line that
is followed by two or more consecutive line breaks (the boolean flag of
each line).  `paragraphTrans` is proved to refine this. -/
def splitAtBreaks : List (String × Bool) → List (List String)
  | [] => []
  | (s, b) :: rest =>
    if b then [s] :: splitAtBreaks rest
    else
      match splitAtBreaks rest with
      | [] => [[s]]
      | g :: gs => (s :: g) :: gs

/-- First-group gluing: merge the first of the incoming groups into the
last accumulated paragraph (what the `paragraph` loop does while
`newpara_started` is false). -/
def glue (paras gs : List (List PVal)) : List (List PVal) :=
  match gs with
  | [] => paras
  | g :: rest => (paras.dropLast ++ [paras.getLastD [] ++ g]) ++ rest

/-- `format(parse(t))` for the text target with default layout
parameters (heading 1, no indent, default indent base); `Option.none`
when either stage fails. -/
def googleRoundText (t : String) : Option String :=
  match googleParse t with
  | .ok d =>
    (match formatDoc googleFmtConv 300 d .text 1 "" Option.none with
     | .ok s => some s
     | .error _ => Option.none)
  | .error _ => Option.none

/-- `format(parse(t), to='markdown')` for the google parser. -/
def googleRoundMd (t : String) : Option String :=
  match googleParse t with
  | .ok d =>
    (match formatDoc googleFmtConv 300 d .markdown 1 "" Option.none with
     | .ok s => some s
     | .error _ => Option.none)
  | .error _ => Option.none

/-- `format(parse(t))` for the liquidpy parser, text target. -/
def liquidRoundText (t : String) : Option String :=
  match liquidParse t with
  | .ok d =>
    (match liquidFormatDocTop 300 d .text 1 "" Option.none with
     | .ok s => some s
     | .error _ => Option.none)
  | .error _ => Option.none

/-- `format(parse(t))` for the numpy parser, text target. -/
def numpyRoundText (t : String) : Option String :=
  match numpyParse t with
  | .ok d =>
    (match formatDoc numpyFmtConv 300 d .text 1 "" Option.none with
     | .ok s => some s
     | .error _ => Option.none)
  | .error _ => Option.none

/-! Concrete documents used in the claim theorems. -/

/-- A google docstring with items and a checklist entry. -/
def c1MdIn : String := "summary\n\nArgs:\n    x (int): an int\n"

/-- Its markdown rendering. -/
def c1Md1 : String := "# summary\n\n# Args:\n  `x` (`int`): an int\n"

/-- The markdown rendering of the parse of `c1Md1`: the heading line
re-parses as plain text and gains a second heading prefix, the item
line re-parses as a paragraph line and gains trailing spaces. -/
def c1Md2 : String := "# # summary\n\n# Args:  \n  `x` (`int`): an int  \n"

/-- A google docstring that is not a rendering fixed point (asterisk
markers, a double blank line, a continuation line under the entry). -/
def c1TextG : String := "summary line\n\n\nArgs:\n    x ( int ): an int\n    y: no type\n\nTodo:\n    * do this\n      details\n"

/-- Its normalised text rendering. -/
def c1TextGOut : String := "summary line\n\nArgs:\n    x ( int ): an int\n    y: no type\n\nTodo:\n    - do this\n        details\n"

/-- A liquidpy docstring with the `@API` marker and a type-only item. -/
def c1TextL : String := "@API\nsummary\n\n@Args:\n    x: an arg\n    (int): typed only\n\n@Todo:\n    - job\n"

/-- Its normalised text rendering. -/
def c1TextLOut : String := "@API\nsummary\n\n@Args:\n    x: an arg\n    int: typed only\n\n@Todo:\n    - job\n"

/-- A numpy docstring with typed and untyped items and a checklist. -/
def c1TextN : String := "summary\n\nParameters\n----------\nx : int\n    desc x\nyy\n    desc y\n\nTodo\n----\n- something\n    more\n"

/-- A google docstring with a no-language code fence whose body parses
into two `paragraph` subtrees: the degenerate `len(args) == 2` branch
of the `codeblock` callback then stores `str(args[0])` — the Python
repr of the first paragraph list — as the language. -/
def c1CodeIn : String := "summary\n\nExamples:\n    ```\n    a\n        b\n    c\n    ```\n"

/-- Its text rendering: the repr lands on the fence line, the first
paragraph's lines are gone from the body.  Re-parsing this string fails
at the fence line — after the backticks only a `LANG` word or the line
break may follow, and `[` starts neither. -/
def c1CodeMid : String := "summary\n\nExamples:\n    ```[ParsedPara(lines=['a']), ParsedPara(lines=[ParsedPara(lines=['b'])])]\n    c\n    ```\n"

/-- Its text rendering (a fixed point). -/
def c1TextNOut : String := "summary\n\nParameters\n----------\nx : int\n    desc x\nyy\n    desc y\n\nTodo\n----\n- something\n    more\n"

/-- A google docstring containing both an alias section header and its
canonical section header. -/
def c2GoogleText : String := "sum\n\nArgs:\n    a: b\n\nParameters:\n    c: d\n"

/-- The same situation in the underline-headed convention. -/
def c2NumpyText : String := "sum\n\nArgs\n----\nwhatever\n    d\n\nParameters\n----------\nwhatever\n    d\n"

/-- The same situation in the at-sign convention. -/
def c2LiquidText : String := "sum\n\n@Args:\n    x: d\n\n@Parameters:\n    y: e\n"

/-- A google docstring with an alias header and no canonical header. -/
def c3Text : String := "sum\n\nArgs:\n    x: a\n"

/-- The document `googleParse c3Text` produces: the canonical entry is
stored under `Parameters` but its section still carries the alias
title, exactly as the shared object does in Python. -/
def c3OutDoc : Doc :=
  [("SUMMARY", PVal.sec "SUMMARY" [PVal.para [PVal.str "sum"]]),
   ("Args", PVal.sec "Args" [PVal.item "x" Option.none "a" []]),
   ("Parameters", PVal.sec "Args" [PVal.item "x" Option.none "a" []])]

/-- A google docstring whose checklist text itself begins with a
marker. -/
def c8Text : String := "x\n\nTodo:\n    - - a\n"

/-- The document produced by the liquidpy parser for an `@API` marker
followed by a summary line. -/
def c10Doc : Doc :=
  [("SUMMARY", PVal.sec "SUMMARY" [PVal.para [PVal.str "hello"]]),
   ("API", PVal.bool true)]

/-- The sections the grammar produces for `c2GoogleText`. -/
def c2GoogleSecs : List PVal :=
  [PVal.sec "SUMMARY" [PVal.para [PVal.str "sum"]],
   PVal.sec "Args" [PVal.item "a" Option.none "b" []],
   PVal.sec "Parameters" [PVal.item "c" Option.none "d" []]]

/-- The sections the grammar produces for `c2NumpyText`. -/
def c2NumpySecs : List PVal :=
  [PVal.sec "SUMMARY" [PVal.para [PVal.str "sum"]],
   PVal.sec "Args" [PVal.item "whatever" Option.none "" [PVal.para [PVal.str "d"]]],
   PVal.sec "Parameters" [PVal.item "whatever" Option.none "" [PVal.para [PVal.str "d"]]]]

/-- The document the liquidpy parser returns for `c2LiquidText`: both
the alias title and the canonical title are kept, no error is raised. -/
def c2LiquidDoc : Doc :=
  [("SUMMARY", PVal.sec "SUMMARY" [PVal.para [PVal.str "sum"]]),
   ("Args", PVal.sec "Args" [PVal.item "x" Option.none "d" []]),
   ("Parameters", PVal.sec "Parameters" [PVal.item "y" Option.none "e" []]),
   ("API", PVal.bool false)]

/-- The sections the grammar produces for `c3Text`. -/
def c3Secs : List PVal :=
  [PVal.sec "SUMMARY" [PVal.para [PVal.str "sum"]],
   PVal.sec "Args" [PVal.item "x" Option.none "a" []]]

/-! Lemmas about the ordered mapping. -/

theorem docGet_docSet_self (d : Doc) (k : String) (v : PVal) :
    docGet (docSet d k v) k = some v := by
  induction d with
  | nil => simp [docSet, docGet]
  | cons hd tl ih =>
    obtain ⟨k2, v2⟩ := hd
    by_cases h : k2 = k <;> simp [docSet, docGet, h, ih]

theorem docGet_docSet_ne (d : Doc) (k k' : String) (v : PVal) (h : k ≠ k') :
    docGet (docSet d k v) k' = docGet d k' := by
  induction d with
  | nil => simp [docSet, docGet, h]
  | cons hd tl ih =>
    obtain ⟨k2, v2⟩ := hd
    by_cases h2 : k2 = k
    · subst h2
      simp [docSet, docGet, h]
    · simp [docSet, docGet, h2, ih]

theorem docHas_docSet_of (d : Doc) (k x : String) (v : PVal)
    (h : docHas d x = true) : docHas (docSet d k v) x = true := by
  by_cases hk : k = x
  · subst hk
    simp [docHas, docGet_docSet_self]
  · simpa [docHas, docGet_docSet_ne d k x v hk] using h

/-! Lemmas about the alias-resolution loop of `_parse`. -/

/-- While alias resolution succeeds, no existing entry is overwritten:
an alias pointing at an already-present canonical title raises instead
of storing. -/
theorem aliasResolve_keeps (tbl : List (String × String)) :
    ∀ (d : Doc) (k : String) (v : PVal) (out : Doc),
      docGet d k = some v → aliasResolve tbl d = .ok out → docGet out k = some v := by
  induction tbl with
  | nil =>
    intro d k v out hk h
    simp only [aliasResolve] at h
    cases h
    exact hk
  | cons p rest ih =>
    intro d k v out hk h
    obtain ⟨a, s⟩ := p
    simp only [aliasResolve] at h
    by_cases ha : docHas d a = true
    · rw [if_pos ha] at h
      by_cases hs : docHas d s = true
      · rw [if_pos hs] at h
        cases h
      · rw [if_neg hs] at h
        cases hga : docGet d a with
        | none => rw [hga] at h; exact ih d k v out hk h
        | some w =>
          rw [hga] at h
          have hsk : s ≠ k := by
            intro he
            subst he
            simp [docHas, hk] at hs
          refine ih (docSet d s w) k v out ?_ h
          rw [docGet_docSet_ne d s k w hsk]
          exact hk
    · rw [if_neg ha] at h
      exact ih d k v out hk h

/-- When both an alias and its canonical title are present, alias
resolution raises the duplicate-section error. -/
theorem aliasResolve_dups (tbl : List (String × String)) :
    ∀ (d : Doc) (al std : String), (al, std) ∈ tbl →
      docHas d al = true → docHas d std = true →
      isDupErr (aliasResolve tbl d) = true := by
  induction tbl with
  | nil => intro d al std hmem; cases hmem
  | cons p rest ih =>
    intro d al std hmem hal hstd
    obtain ⟨a, s⟩ := p
    rcases List.mem_cons.mp hmem with heq | hmem2
    · cases heq
      simp [aliasResolve, hal, hstd, isDupErr]
    · simp only [aliasResolve]
      by_cases ha : docHas d a = true
      · rw [if_pos ha]
        by_cases hs : docHas d s = true
        · rw [if_pos hs]
          simp [isDupErr]
        · rw [if_neg hs]
          cases hga : docGet d a with
          | none => exact ih d al std hmem2 hal hstd
          | some w =>
            exact ih (docSet d s w) al std hmem2
              (docHas_docSet_of d s al w hal) (docHas_docSet_of d s std w hstd)
      · rw [if_neg ha]
        exact ih d al std hmem2 hal hstd

/-- When an alias is present and its canonical title absent, successful
alias resolution stores the alias's very value under the canonical
title as well (the side condition says no canonical title of the table
equals the alias key, which holds for `ALIASES`). -/
theorem aliasResolve_adds (tbl : List (String × String)) :
    ∀ (d : Doc) (al std : String) (v : PVal) (out : Doc),
      (al, std) ∈ tbl → (∀ p ∈ tbl, Prod.snd p ≠ al) →
      docGet d al = some v → docHas d std = false →
      aliasResolve tbl d = .ok out →
      docGet out al = some v ∧ docGet out std = some v := by
  induction tbl with
  | nil => intro d al std v out hmem; cases hmem
  | cons p rest ih =>
    intro d al std v out hmem hdisj hal hstd h
    obtain ⟨a, s⟩ := p
    have hsal : s ≠ al := hdisj (a, s) (List.mem_cons_self _ _)
    rcases List.mem_cons.mp hmem with heq | hmem2
    · cases heq
      have hhal : docHas d al = true := by simp [docHas, hal]
      simp only [aliasResolve] at h
      rw [if_pos hhal, if_neg (by simp [hstd]), hal] at h
      constructor
      · exact aliasResolve_keeps rest (docSet d std v) al v out
          (by rw [docGet_docSet_ne d std al v hsal]; exact hal) h
      · exact aliasResolve_keeps rest (docSet d std v) std v out
          (docGet_docSet_self d std v) h
    · simp only [aliasResolve] at h
      by_cases ha : docHas d a = true
      · rw [if_pos ha] at h
        by_cases hs : docHas d s = true
        · rw [if_pos hs] at h
          cases h
        · rw [if_neg hs] at h
          cases hga : docGet d a with
          | none =>
            rw [hga] at h
            exact ih d al std v out hmem2 (fun p hp => hdisj p (List.mem_cons_of_mem _ hp)) hal hstd h
          | some w =>
            rw [hga] at h
            have h : aliasResolve rest (docSet d s w) = .ok out := h
            by_cases hss : s = std
            · subst hss
              -- the canonical title was just stored; the later alias
              -- collision makes resolution fail, contradicting success
              have hdup := aliasResolve_dups rest (docSet d s w) al s hmem2
                (docHas_docSet_of d s al w (by simp [docHas, hal]))
                (by simp [docHas, docGet_docSet_self])
              rw [h] at hdup
              simp [isDupErr] at hdup
            · refine ih (docSet d s w) al std v out hmem2
                (fun p hp => hdisj p (List.mem_cons_of_mem _ hp)) ?_ ?_ h
              · rw [docGet_docSet_ne d s al w hsal]; exact hal
              · simpa [docHas, docGet_docSet_ne d s std w hss] using hstd
      · rw [if_neg ha] at h
        exact ih d al std v out hmem2 (fun p hp => hdisj p (List.mem_cons_of_mem _ hp)) hal hstd h

/-- No canonical title of the alias table is itself an alias key: the
side condition of `aliasResolve_adds` holds for every alias of
`ALIASES`. -/
theorem aliases_snd_ne : ∀ p ∈ ALIASES, ∀ q ∈ ALIASES, Prod.snd q ≠ Prod.fst p := by
  decide

/-- When `_parse` raises, `Parser.parse` stores nothing: the cache after
the failing call is the cache before it. -/
theorem parseCachedWith_error (key : String) (run : Unit → Except PErr Doc)
    (cache : Cache) (e : PErr) (h : run () = .error e) :
    (parseCachedWith key run cache).1 = cache := by
  unfold parseCachedWith
  cases hg : cacheGet cache key with
  | some d => rfl
  | none => rw [h]

/-- On the bare-newline preprocessed text the grammar itself never
runs successfully (there is no content line), so a successful grammar
run identifies the non-degenerate branch of `_parse`. -/
theorem googleParsePre_of_runParse (pre : String) (secs : List PVal)
    (h : runParse googleConv pre = .ok secs) :
    googleParsePre pre = aliasResolve ALIASES (docOfSections secs) := by
  by_cases hp : pre = "\n"
  · subst hp
    have hnl : runParse googleConv "\n" = .error .parse := rfl
    rw [hnl] at h
    cases h
  · unfold googleParsePre
    rw [if_neg hp, h]

theorem numpyParsePre_of_runParse (pre : String) (secs : List PVal)
    (h : runParse numpyConv pre = .ok secs) :
    numpyParsePre pre = aliasResolve ALIASES (docOfSections secs) := by
  by_cases hp : pre = "\n"
  · subst hp
    have hnl : runParse numpyConv "\n" = .error .parse := rfl
    rw [hnl] at h
    cases h
  · unfold numpyParsePre
    rw [if_neg hp, h]

theorem liquidParsePre_of_runParse (pa : String × Bool) (secs : List PVal)
    (h : runParse liquidConv pa.1 = .ok secs) :
    liquidParsePre pa = .ok (docSet (docOfSections secs) "API" (PVal.bool pa.2)) := by
  by_cases hp : pa.1 = "\n"
  · rw [hp] at h
    have hnl : runParse liquidConv "\n" = .error .parse := rfl
    rw [hnl] at h
    cases h
  · unfold liquidParsePre
    rw [if_neg hp, h]

/-! The `paragraph` callback refines the specified splitting rule. -/

/-- The grouping loop of the `paragraph` callback, on plain line
arguments, computes the specified break-splitting: a new paragraph
starts after every line followed by more than one line break. -/
theorem paragraphGo_lines (ls : List (String × Bool)) :
    ∀ (paras : List (List PVal)) (started : Bool),
      paragraphGo (ls.map fun p => PArg.line p.1 p.2) paras started =
        if started then paras ++ (splitAtBreaks ls).map (fun g => g.map PVal.str)
        else glue paras ((splitAtBreaks ls).map (fun g => g.map PVal.str)) := by
  induction ls with
  | nil =>
    intro paras started
    cases started <;> simp [paragraphGo, splitAtBreaks, glue]
  | cons p rest ih =>
    intro paras started
    obtain ⟨s, b⟩ := p
    simp only [List.map_cons, paragraphGo]
    rw [ih]
    cases started with
    | true =>
      cases b with
      | true => simp [splitAtBreaks]
      | false =>
        simp only [splitAtBreaks, Bool.false_eq_true, if_false, if_true]
        cases hsr : splitAtBreaks rest with
        | nil => simp [glue]
        | cons g gs =>
          simp [glue, List.dropLast_concat, List.getLastD_concat]
    | false =>
      cases b with
      | true =>
        simp only [splitAtBreaks, if_true]
        cases paras with
        | nil => simp [appendLast, glue]
        | cons q qs => simp [appendLast, glue, List.dropLast_concat, List.getLastD_concat]
      | false =>
        simp only [splitAtBreaks, Bool.false_eq_true, if_false]
        cases hsr : splitAtBreaks rest with
        | nil =>
          cases paras with
          | nil => simp [appendLast, glue]
          | cons q qs => simp [appendLast, glue]
        | cons g gs =>
          cases paras with
          | nil => simp [appendLast, glue]
          | cons q qs =>
            simp [appendLast, glue, List.dropLast_concat, List.getLastD_concat]

/-- The `paragraph` callback on a run of plain lines produces exactly
one `ParsedPara` per break-delimited group. -/
theorem paragraphTrans_lines (ls : List (String × Bool)) :
    paragraphTrans (ls.map fun p => PArg.line p.1 p.2) =
      (splitAtBreaks ls).map (fun g => PVal.para (g.map PVal.str)) := by
  simp [paragraphTrans, paragraphGo_lines, List.map_map]

/-! Characterisations of the element renderers. -/

/-- The checklist branch of every text `_format_element`: the optional
leading blank line, the `- text` marker line, then the children. -/
theorem fmtEl_todo (fc : FmtConv) (n : Nat) (t : String) (more : List PVal)
    (indent : String) (lead : Bool) (base : String) :
    fmtEl fc (n + 1) (.todo t more) indent lead base =
      Except.map
        (fun body => (if lead then [""] else []) ++ (indent ++ "- " ++ t) :: body)
        (fmtMoreGo fc n more (indent ++ base) base 0) := by
  cases h : fmtMoreGo fc n more (indent ++ base) base 0 <;>
    simp [fmtEl, h, Except.map]

/-- The item branch of every text `_format_element`: the header line is
the per-convention `itemLine`. -/
theorem fmtEl_item (fc : FmtConv) (n : Nat) (name : String) (ty : Option String)
    (desc : String) (more : List PVal) (indent : String) (lead : Bool) (base : String) :
    fmtEl fc (n + 1) (.item name ty desc more) indent lead base =
      Except.map
        (fun body => (if lead then [""] else []) ++ fc.itemLine indent name ty desc :: body)
        (fmtMoreGo fc n more (indent ++ base) base 0) := by
  cases h : fmtMoreGo fc n more (indent ++ base) base 0 <;>
    simp [fmtEl, h, Except.map]

/-- `Parser._format_todo_markdown`: the checklist line carries the two
trailing spaces. -/
theorem fmtElMd_todo (n : Nat) (t : String) (more : List PVal) (indent : String)
    (heading : Nat) (lead : Bool) (base : String) :
    fmtElMd (n + 1) (.todo t more) indent heading lead base =
      Except.map
        (fun body => (if lead then [""] else []) ++ (indent ++ "- " ++ t ++ "  ") :: body)
        (fmtMoreMdGo n more (indent ++ base) heading base 0) := by
  cases h : fmtMoreMdGo n more (indent ++ base) heading base 0 <;>
    simp [fmtElMd, h, Except.map]

/-- `Parser._format_item_markdown`: an untyped item line ends with two
spaces, a typed item line does not. -/
theorem fmtElMd_item (n : Nat) (name : String) (ty : Option String) (desc : String)
    (more : List PVal) (indent : String) (heading : Nat) (lead : Bool) (base : String) :
    fmtElMd (n + 1) (.item name ty desc more) indent heading lead base =
      Except.map
        (fun body => (if lead then [""] else []) ++
          (if tyTruthy ty then
             indent ++ "`" ++ name ++ "` (`" ++ langOrEmpty ty ++ "`): " ++ desc
           else indent ++ "`" ++ name ++ "`: " ++ desc ++ "  ") :: body)
        (fmtMoreMdGo n more (indent ++ base) heading base 0) := by
  cases h : fmtMoreMdGo n more (indent ++ base) heading base 0 <;>
    cases hty : tyTruthy ty <;> simp [fmtElMd, h, hty, Except.map]

/-- `Parser._format_para_markdown` on a paragraph of plain lines:
every line is indented and suffixed with the two-space hard break. -/
theorem fmtParaMdGo_strs (ss : List String) :
    ∀ (n : Nat) (indent : String) (heading : Nat) (lead : Bool) (base : String)
      (i : Nat) (acc : List String),
      fmtParaMdGo (ss.length + n + 1) (ss.map PVal.str) indent heading lead base i acc =
        .ok (acc ++ ss.map (fun s => indent ++ s ++ "  ")) := by
  induction ss with
  | nil => intro n indent heading lead base i acc; simp [fmtParaMdGo]
  | cons s rest ih =>
    intro n indent heading lead base i acc
    have heq : (s :: rest).length + n + 1 = (rest.length + n + 1) + 1 := by
      simp [List.length_cons]
      omega
    rw [heq]
    simp only [List.map_cons, fmtParaMdGo]
    have := ih n indent heading lead base (i + 1) (acc ++ [indent ++ s ++ "  "])
    rw [this]
    simp

theorem fmtElMd_para_strs (ss : List String) (n : Nat) (indent : String)
    (heading : Nat) (lead : Bool) (base : String) :
    fmtElMd (ss.length + n + 2) (.para (ss.map PVal.str)) indent heading lead base =
      .ok ((if lead then [""] else []) ++ ss.map (fun s => indent ++ s ++ "  ")) := by
  have heq : ss.length + n + 2 = (ss.length + n + 1) + 1 := rfl
  rw [heq]
  simp only [fmtElMd]
  exact fmtParaMdGo_strs ss n indent heading lead base 0 (if lead then [""] else [])

/-- A line built by appending the markdown hard break ends with two
spaces. -/
theorem endsTwoSpaces_append (x : String) : endsTwoSpaces (x ++ "  ") = true := by
  have hd : (x ++ "  ").data = x.data ++ [' ', ' '] := by
    simp [String.data_append]
  simp [endsTwoSpaces, hd, List.reverse_append]

/-- A string starts with any of its prefixes. -/
theorem strStartsWith_append (p t : String) : strStartsWith (p ++ t) p = true := by
  simp [strStartsWith, String.data_append, List.isPrefixOf_iff_prefix]

/-- `Parser._format_section_markdown` only appends to the lines
already accumulated, so the heading line stays in front. -/
theorem fmtSecMdGo_isPrefix :
    ∀ (n : Nat) (secs orig : List PVal) (i : Nat) (indent : String) (heading : Nat)
      (base : String) (isSum : Bool) (acc out : List String),
      fmtSecMdGo n secs orig i indent heading base isSum acc = .ok out →
      ∃ t2, out = acc ++ t2 := by
  intro n
  induction n with
  | zero =>
    intro secs orig i indent heading base isSum acc out h
    simp [fmtSecMdGo] at h
  | succ n ih =>
    intro secs orig i indent heading base isSum acc out h
    cases secs with
    | nil =>
      simp only [fmtSecMdGo] at h
      cases h
      exact ⟨[], by simp⟩
    | cons s rest =>
      simp only [fmtSecMdGo] at h
      split at h
      · rename_i x body hb
        obtain ⟨t2, ht⟩ := ih _ _ _ _ _ _ _ _ _ h
        exact ⟨body ++ t2, by rw [ht]; simp⟩
      · cases h

/-- The heading branch of `_format_section_markdown`: rendering the
leading (`SUMMARY`) section emits `'#' * heading` plus the first line
of its first paragraph as the first output line. -/
theorem fmtElMd_summary_heading (n : Nat) (s0 : String) (ls rest : List PVal)
    (indent : String) (heading : Nat) (base : String) (out : List String)
    (h : fmtElMd (n + 1) (.sec SUMMARY (.para (.str s0 :: ls) :: rest))
          indent heading false base = .ok out) :
    ∃ t2, out = (headingMarks heading ++ " " ++ s0) :: t2 := by
  simp only [fmtElMd, SUMMARY, reduceIte, List.isEmpty_cons, Bool.false_eq_true] at h
  obtain ⟨t2, ht⟩ := fmtSecMdGo_isPrefix _ _ _ _ _ _ _ _ _ _ h
  exact ⟨t2, by simpa using ht⟩

/-! The liquidpy `API` flag. -/

/-- The flag computed by `LiquidpyParser._preprocess` is exactly
whether the first line of the raw text is the literal `@API`. -/
theorem liquidPreprocess_api (t : String) :
    (liquidPreprocess t).2 = firstLineIsAPI t := by
  unfold liquidPreprocess firstLineIsAPI
  cases pySplitlines t with
  | nil => rfl
  | cons f rest => rfl

/-- `LiquidpyParser._parse` stores the `API` flag in the mapping. -/
theorem liquidParsePre_api (pa : String × Bool) (d : Doc)
    (h : liquidParsePre pa = .ok d) :
    docGet d "API" = some (PVal.bool pa.2) := by
  unfold liquidParsePre at h
  cases hx : (if pa.1 = "\n" then (.ok [] : Except PErr (List PVal))
              else runParse liquidConv pa.1) with
  | error e =>
    rw [hx] at h
    have h2 : (Except.error e : Except PErr Doc) = .ok d := h
    cases h2
  | ok secs =>
    rw [hx] at h
    have h2 : Except.ok (docSet (docOfSections secs) "API" (PVal.bool pa.2)) =
        (Except.ok d : Except PErr Doc) := h
    cases h2
    exact docGet_docSet_self _ _ _

/-- `LiquidpyParser._format` skips boolean entries while iterating the
stored values. -/
theorem fmtDocLiquidGo_skips_bool (n : Nat) (k : String) (b : Bool) (rest : Doc)
    (indent base : String) :
    fmtDocLiquidGo (n + 1) ((k, PVal.bool b) :: rest) indent base =
      fmtDocLiquidGo n rest indent base := rfl

/-- With the `API` flag true, the rendered document starts with the
inserted `@API` line. -/
theorem liquidFormatDoc_api_true (n : Nat) (d : Doc) (indent base s : String)
    (hapi : docGet d "API" = some (PVal.bool true))
    (h : liquidFormatDoc n d indent base = .ok s) :
    strStartsWith s "@API\n" = true := by
  unfold liquidFormatDoc at h
  cases hr : fmtDocLiquidGo n d indent base with
  | error e =>
    rw [hr] at h
    have h2 : (Except.error e : Except RErr String) = .ok s := h
    cases h2
  | ok parts =>
    rw [hr] at h
    rw [hapi] at h
    simp only [pvTruthy, if_true] at h
    cases parts with
    | nil =>
      have h2 : (Except.error RErr.typeErr : Except RErr String) = .ok s := h
      cases h2
    | cons p0 rest =>
      have h2 : Except.ok (joinNL ("@API" :: (indent ++ p0) :: rest) ++ "\n") =
          (Except.ok s : Except RErr String) := h
      cases h2
      have hj : joinNL ("@API" :: (indent ++ p0) :: rest) ++ "\n" =
          "@API\n" ++ (joinNL ((indent ++ p0) :: rest) ++ "\n") := by
        show ("@API" ++ "\n" ++ joinNL ((indent ++ p0) :: rest)) ++ "\n" = _
        have : ("@API" : String) ++ "\n" = "@API\n" := by decide
        rw [← this]
        simp [String.append_assoc]
      rw [hj]
      exact strStartsWith_append _ _

/-- With the `API` flag false, `_format` performs no insertion: the
output is just the joined section rendering. -/
theorem liquidFormatDoc_api_false (n : Nat) (d : Doc) (indent base : String)
    (hapi : docGet d "API" = some (PVal.bool false)) :
    liquidFormatDoc n d indent base =
      Except.map (fun parts => joinNL parts ++ "\n") (fmtDocLiquidGo n d indent base) := by
  unfold liquidFormatDoc
  cases hr : fmtDocLiquidGo n d indent base <;>
    simp [hapi, pvTruthy, Except.map]

/-! Claim theorems. -/

/-- C1 (counterexample): rendering is idempotent for neither target.
Markup: the markdown rendering of `c1MdIn` is `c1Md1`, but rendering
the parse of `c1Md1` yields `c1Md2`, which differs — the heading line
re-parses as plain text and gains a second heading prefix, the
re-parsed lines gain hard-break spaces.  Text: `c1CodeIn` parses
successfully and renders to `c1CodeMid`, but `c1CodeMid` no longer
parses (the fence line now carries the `codeblock` callback's
`str(args[0])` repr, which is no `LANG` word), so the second
parse-render round fails outright instead of reproducing the string. -/
theorem c1_counterexample :
    (googleRoundMd c1MdIn = some c1Md1 ∧
     googleRoundMd c1Md1 = some c1Md2 ∧
     c1Md1 ≠ c1Md2) ∧
    (googleRoundText c1CodeIn = some c1CodeMid ∧
     googleParse c1CodeMid = .error .lex ∧
     googleRoundText c1CodeMid = Option.none) :=
  ⟨⟨by decide, by decide, by decide⟩, ⟨rfl, rfl, rfl⟩⟩

/-- C1 (amended): idempotence holds per document, not universally — one
parse-render round can reach a fixed point of the text-target
`render ∘ parse`, shown here on a representative document for each
convention (each with markers, blank-line runs and indentation that the
first rendering normalises, and free of the degenerate code-fence
languages and markup-significant prefixes of the counterexample). -/
theorem c1_amended :
    (googleRoundText c1TextG = some c1TextGOut ∧
     googleRoundText c1TextGOut = some c1TextGOut) ∧
    (liquidRoundText c1TextL = some c1TextLOut ∧
     liquidRoundText c1TextLOut = some c1TextLOut) ∧
    (numpyRoundText c1TextN = some c1TextNOut ∧
     numpyRoundText c1TextNOut = some c1TextNOut) :=
  ⟨⟨by decide, by decide⟩, ⟨by decide, by decide⟩, ⟨by decide, by decide⟩⟩

/-- C4: a leading-section body of `"a\nb\n\nc"` yields exactly two
paragraphs, `["a","b"]` and `["c"]`, under each of the three
conventions; and in general the `paragraph` callback starts a new
`ParsedPara` exactly after every line followed by more than one line
break. -/
theorem c4_paragraph_splitting :
    googleParse "a\nb\n\nc" =
      .ok [("SUMMARY", PVal.sec "SUMMARY"
            [PVal.para [PVal.str "a", PVal.str "b"], PVal.para [PVal.str "c"]])] ∧
    liquidParse "a\nb\n\nc" =
      .ok [("SUMMARY", PVal.sec "SUMMARY"
            [PVal.para [PVal.str "a", PVal.str "b"], PVal.para [PVal.str "c"]]),
           ("API", PVal.bool false)] ∧
    numpyParse "a\nb\n\nc" =
      .ok [("SUMMARY", PVal.sec "SUMMARY"
            [PVal.para [PVal.str "a", PVal.str "b"], PVal.para [PVal.str "c"]])] ∧
    ∀ ls : List (String × Bool),
      paragraphTrans (ls.map fun p => PArg.line p.1 p.2) =
        (splitAtBreaks ls).map (fun g => PVal.para (g.map PVal.str)) :=
  ⟨rfl, rfl, rfl, paragraphTrans_lines⟩

/-- C5: parsing the empty string succeeds with zero canonical sections
for the google and numpy parsers (the liquidpy document holds only its
`API` flag entry); the result is stored in the cache under the key of
the preprocessed text, and a second parse of the empty string returns
exactly the stored entry with the cache unchanged — the embedding's
rendering of Python returning the identical cached object. -/
theorem c5_empty_parse_cached :
    (googleParseCached [] "" = ([("\n", ([] : Doc))], .ok ([] : Doc)) ∧
     googleParseCached [("\n", ([] : Doc))] "" = ([("\n", ([] : Doc))], .ok ([] : Doc)) ∧
     cacheGet [("\n", ([] : Doc))] (googlePreprocess "") = some ([] : Doc)) ∧
    (numpyParseCached [] "" = ([("\n", ([] : Doc))], .ok ([] : Doc)) ∧
     numpyParseCached [("\n", ([] : Doc))] "" = ([("\n", ([] : Doc))], .ok ([] : Doc)) ∧
     cacheGet [("\n", ([] : Doc))] (numpyPreprocess "") = some ([] : Doc)) ∧
    (liquidParseCached [] "" =
       ([(tupleKey ("\n", false), [("API", PVal.bool false)])],
        .ok [("API", PVal.bool false)]) ∧
     liquidParseCached [(tupleKey ("\n", false), [("API", PVal.bool false)])] "" =
       ([(tupleKey ("\n", false), [("API", PVal.bool false)])],
        .ok [("API", PVal.bool false)]) ∧
     cacheGet [(tupleKey ("\n", false), [("API", PVal.bool false)])]
         (tupleKey (liquidPreprocess "")) = some [("API", PVal.bool false)]) :=
  ⟨⟨rfl, rfl, rfl⟩, ⟨rfl, rfl, rfl⟩, ⟨rfl, rfl, rfl⟩⟩

/-- C8 (counterexample): for the checklist marker line `"- - a"` the
stored entry text is `"a"`, not the `"- a"` that removing exactly one
marker and one space would give — `lstrip('-* ')` strips every leading
dash, asterisk and space.  Checked through the full google parse of a
docstring whose Todo section contains that marker line. -/
theorem c8_counterexample :
    firstTodoTextOf (googleParse c8Text) "Todo" = some "a" ∧
    ("a" : String) ≠ "- a" :=
  ⟨rfl, by decide⟩

/-- C8 (amended): the stored text of a checklist entry is the marker
line with every leading dash, asterisk and space removed; when the
entry text does not itself begin with one of those characters, this
coincides with removing exactly the marker and its following space. -/
theorem c8_amended :
    (∀ l : List Char,
       todoTrans l =
         PVal.todo (String.mk (l.dropWhile (fun c => c = '-' || c = '*' || c = ' '))) []) ∧
    (∀ (c : Char) (restc : List Char), c ≠ '-' → c ≠ '*' → c ≠ ' ' →
       todoTrans ('-' :: ' ' :: c :: restc) = PVal.todo (String.mk (c :: restc)) []) ∧
    (∀ (c : Char) (restc : List Char), c ≠ '-' → c ≠ '*' → c ≠ ' ' →
       todoTrans ('*' :: ' ' :: c :: restc) = PVal.todo (String.mk (c :: restc)) []) := by
  refine ⟨fun l => rfl, ?_, ?_⟩ <;>
    · intro c restc h1 h2 h3
      simp [todoTrans, List.dropWhile, h1, h2, h3]

/-- C8 (witness): the amended statement at the plain marker line
`"- a"`. -/
theorem c8_amended_witness :
    todoTrans ('-' :: ' ' :: 'a' :: []) = PVal.todo (String.mk ['a']) [] :=
  c8_amended.2.1 'a' [] (by decide) (by decide) (by decide)

/-- C2 (counterexample): the liquidpy parser has no alias table — a
docstring holding both an `@Args:` and an `@Parameters:` section parses
successfully with both titles present, no duplicate-section error. -/
theorem c2_counterexample :
    liquidParse c2LiquidText = .ok c2LiquidDoc ∧
    docHas c2LiquidDoc "Args" = true ∧
    docHas c2LiquidDoc "Parameters" = true ∧
    isDupErr (liquidParse c2LiquidText) = false :=
  ⟨rfl, rfl, rfl, rfl⟩

/-- C2 (amended): for the colon-headed (google) and underline-headed
(numpy) conventions, whenever the grammar accepts the preprocessed text
with sections holding both an alias title and its canonical title, the
parse fails with the duplicate-section error; the at-sign convention
performs no alias resolution at all (see the counterexample). -/
theorem c2_amended :
    (∀ (t : String) (secs : List PVal) (al std : String),
       (al, std) ∈ ALIASES →
       runParse googleConv (googlePreprocess t) = .ok secs →
       docHas (docOfSections secs) al = true →
       docHas (docOfSections secs) std = true →
       isDupErr (googleParse t) = true) ∧
    (∀ (t : String) (secs : List PVal) (al std : String),
       (al, std) ∈ ALIASES →
       runParse numpyConv (numpyPreprocess t) = .ok secs →
       docHas (docOfSections secs) al = true →
       docHas (docOfSections secs) std = true →
       isDupErr (numpyParse t) = true) := by
  constructor
  · intro t secs al std hmem hrun hal hstd
    show isDupErr (googleParsePre (googlePreprocess t)) = true
    rw [googleParsePre_of_runParse _ _ hrun]
    exact aliasResolve_dups ALIASES _ al std hmem hal hstd
  · intro t secs al std hmem hrun hal hstd
    show isDupErr (numpyParsePre (numpyPreprocess t)) = true
    rw [numpyParsePre_of_runParse _ _ hrun]
    exact aliasResolve_dups ALIASES _ al std hmem hal hstd

/-- C2 (witness): the amended statement at concrete google and numpy
docstrings holding both `Args` and `Parameters` sections. -/
theorem c2_amended_witness :
    isDupErr (googleParse c2GoogleText) = true ∧
    isDupErr (numpyParse c2NumpyText) = true :=
  ⟨c2_amended.1 c2GoogleText c2GoogleSecs "Args" "Parameters" (by decide) rfl rfl rfl,
   c2_amended.2 c2NumpyText c2NumpySecs "Args" "Parameters" (by decide) rfl rfl rfl⟩

/-- C3: when an alias title is present and its canonical title absent,
a successful parse stores one value under both titles — the entries are
the alias's very section value (Python stores the same object; the
embedding exhibits the sharing as the canonical entry carrying the
alias's value unchanged, title included). -/
theorem c3_alias_shared :
    (∀ (t : String) (secs : List PVal) (al std : String) (v : PVal) (out : Doc),
       (al, std) ∈ ALIASES →
       runParse googleConv (googlePreprocess t) = .ok secs →
       docGet (docOfSections secs) al = some v →
       docHas (docOfSections secs) std = false →
       googleParse t = .ok out →
       docGet out al = some v ∧ docGet out std = some v) ∧
    (∀ (t : String) (secs : List PVal) (al std : String) (v : PVal) (out : Doc),
       (al, std) ∈ ALIASES →
       runParse numpyConv (numpyPreprocess t) = .ok secs →
       docGet (docOfSections secs) al = some v →
       docHas (docOfSections secs) std = false →
       numpyParse t = .ok out →
       docGet out al = some v ∧ docGet out std = some v) := by
  constructor
  · intro t secs al std v out hmem hrun hal hstd hok
    have hpre := googleParsePre_of_runParse _ _ hrun
    have hok2 : aliasResolve ALIASES (docOfSections secs) = .ok out := by
      rw [← hpre]; exact hok
    exact aliasResolve_adds ALIASES _ al std v out hmem
      (fun p hp => aliases_snd_ne (al, std) hmem p hp) hal hstd hok2
  · intro t secs al std v out hmem hrun hal hstd hok
    have hpre := numpyParsePre_of_runParse _ _ hrun
    have hok2 : aliasResolve ALIASES (docOfSections secs) = .ok out := by
      rw [← hpre]; exact hok
    exact aliasResolve_adds ALIASES _ al std v out hmem
      (fun p hp => aliases_snd_ne (al, std) hmem p hp) hal hstd hok2

/-- C3 (witness): at `c3Text` both the `Args` and `Parameters` entries
hold the same section value, whose title is still `Args`. -/
theorem c3_alias_shared_witness :
    docGet c3OutDoc "Args" = some (PVal.sec "Args" [PVal.item "x" Option.none "a" []]) ∧
    docGet c3OutDoc "Parameters" =
      some (PVal.sec "Args" [PVal.item "x" Option.none "a" []]) :=
  c3_alias_shared.1 c3Text c3Secs "Args" "Parameters"
    (PVal.sec "Args" [PVal.item "x" Option.none "a" []]) c3OutDoc
    (by decide) rfl rfl rfl rfl

/-- C6: in text rendering a checklist entry's line is `- text`; an item
line is the convention's header — google and liquidpy render
`name (type): description` with a type and `name: description` without,
numpy renders `name : type` with no description (and the bare name
without a type). -/
theorem c6_text_item_lines :
    (∀ (fc : FmtConv) (n : Nat) (t : String) (more : List PVal) (indent : String)
       (lead : Bool) (base : String),
       fmtEl fc (n + 1) (.todo t more) indent lead base =
         Except.map
           (fun body => (if lead then [""] else []) ++ (indent ++ "- " ++ t) :: body)
           (fmtMoreGo fc n more (indent ++ base) base 0)) ∧
    (∀ (fc : FmtConv) (n : Nat) (name : String) (ty : Option String) (desc : String)
       (more : List PVal) (indent : String) (lead : Bool) (base : String),
       fmtEl fc (n + 1) (.item name ty desc more) indent lead base =
         Except.map
           (fun body => (if lead then [""] else []) ++
             fc.itemLine indent name ty desc :: body)
           (fmtMoreGo fc n more (indent ++ base) base 0)) ∧
    (∀ (indent name ty desc : String), ty ≠ "" →
       googleFmtConv.itemLine indent name (some ty) desc =
         indent ++ name ++ " (" ++ ty ++ "): " ++ desc ∧
       liquidFmtConv.itemLine indent name (some ty) desc =
         indent ++ name ++ " (" ++ ty ++ "): " ++ desc ∧
       numpyFmtConv.itemLine indent name (some ty) desc = indent ++ name ++ " : " ++ ty) ∧
    (∀ (indent name desc : String),
       googleFmtConv.itemLine indent name Option.none desc = indent ++ name ++ ": " ++ desc ∧
       liquidFmtConv.itemLine indent name Option.none desc = indent ++ name ++ ": " ++ desc ∧
       numpyFmtConv.itemLine indent name Option.none desc = indent ++ name) := by
  refine ⟨fmtEl_todo, fmtEl_item, ?_, ?_⟩
  · intro indent name ty desc hty
    have h : tyTruthy (some ty) = true := by simp [tyTruthy, hty]
    refine ⟨?_, ?_, ?_⟩ <;>
      simp [googleFmtConv, liquidFmtConv, numpyFmtConv, h, langOrEmpty]
  · intro indent name desc
    exact ⟨rfl, rfl, rfl⟩

/-- C6 (witness): the typed item lines of the three conventions at a
concrete item. -/
theorem c6_text_item_lines_witness :
    googleFmtConv.itemLine "" "x" (some "int") "d" = "x (int): d" ∧
    liquidFmtConv.itemLine "" "x" (some "int") "d" = "x (int): d" ∧
    numpyFmtConv.itemLine "" "x" (some "int") "d" = "x : int" :=
  c6_text_item_lines.2.2.1 "" "x" "int" "d" (by decide)

/-- C7 (counterexample): a typed item's markdown header line carries no
trailing two-space hard break — `_format_item_markdown` appends the
suffix only in the untyped branch. -/
theorem c7_counterexample :
    fmtElMd 2 (PVal.item "x" (some "int") "d" []) "" 1 false "  " =
      .ok ["`x` (`int`): d"] ∧
    endsTwoSpaces "`x` (`int`): d" = false :=
  ⟨rfl, rfl⟩

/-- C7 (amended): in markdown rendering the plain paragraph lines, the
checklist line and the untyped item line all end with the two-space
hard break; a typed item line does not (see the counterexample); and
the leading section's first line is emitted as a heading built from
`'#' * heading` at the requested level. -/
theorem c7_amended :
    (∀ (ss : List String) (n : Nat) (indent : String) (heading : Nat) (lead : Bool)
       (base : String),
       fmtElMd (ss.length + n + 2) (.para (ss.map PVal.str)) indent heading lead base =
         .ok ((if lead then [""] else []) ++ ss.map (fun s => indent ++ s ++ "  ")) ∧
       ∀ x ∈ ss.map (fun s => indent ++ s ++ "  "), endsTwoSpaces x = true) ∧
    (∀ (n : Nat) (t : String) (more : List PVal) (indent : String) (heading : Nat)
       (lead : Bool) (base : String),
       fmtElMd (n + 1) (.todo t more) indent heading lead base =
         Except.map
           (fun body => (if lead then [""] else []) ++
             (indent ++ "- " ++ t ++ "  ") :: body)
           (fmtMoreMdGo n more (indent ++ base) heading base 0) ∧
       endsTwoSpaces (indent ++ "- " ++ t ++ "  ") = true) ∧
    (∀ (n : Nat) (name desc : String) (more : List PVal) (indent : String)
       (heading : Nat) (lead : Bool) (base : String),
       fmtElMd (n + 1) (.item name Option.none desc more) indent heading lead base =
         Except.map
           (fun body => (if lead then [""] else []) ++
             (indent ++ "`" ++ name ++ "`: " ++ desc ++ "  ") :: body)
           (fmtMoreMdGo n more (indent ++ base) heading base 0) ∧
       endsTwoSpaces (indent ++ "`" ++ name ++ "`: " ++ desc ++ "  ") = true) ∧
    (∀ (n : Nat) (s0 : String) (ls rest : List PVal) (indent : String) (heading : Nat)
       (base : String) (out : List String),
       fmtElMd (n + 1) (.sec SUMMARY (.para (.str s0 :: ls) :: rest))
           indent heading false base = .ok out →
       ∃ t2, out = (headingMarks heading ++ " " ++ s0) :: t2) := by
  refine ⟨?_, ?_, ?_, fmtElMd_summary_heading⟩
  · intro ss n indent heading lead base
    refine ⟨fmtElMd_para_strs ss n indent heading lead base, ?_⟩
    intro x hx
    obtain ⟨s, _, rfl⟩ := List.mem_map.mp hx
    exact endsTwoSpaces_append (indent ++ s)
  · intro n t more indent heading lead base
    exact ⟨fmtElMd_todo n t more indent heading lead base,
           endsTwoSpaces_append (indent ++ "- " ++ t)⟩
  · intro n name desc more indent heading lead base
    refine ⟨?_, endsTwoSpaces_append (indent ++ "`" ++ name ++ "`: " ++ desc)⟩
    have h := fmtElMd_item n name Option.none desc more indent heading lead base
    simpa [tyTruthy] using h

/-- C7 (witness): the heading conjunct of the amended statement at a
concrete one-line leading section rendered at heading level 2. -/
theorem c7_amended_witness :
    ∃ t2, (["## hi"] : List String) = (headingMarks 2 ++ " " ++ "hi") :: t2 :=
  c7_amended.2.2.2 4 "hi" [] [] "" 2 "  " ["## hi"] rfl

/-- C9: a failing `_parse` (lexer, grammar or duplicate-section error)
leaves the memoization cache of `Parser.parse` exactly as it was, for
each of the three conventions — nothing is stored for the failing
input. -/
theorem c9_failed_parse_cache :
    (∀ (cache : Cache) (t : String) (e : PErr),
       googleParsePre (googlePreprocess t) = .error e →
       (googleParseCached cache t).1 = cache) ∧
    (∀ (cache : Cache) (t : String) (e : PErr),
       numpyParsePre (numpyPreprocess t) = .error e →
       (numpyParseCached cache t).1 = cache) ∧
    (∀ (cache : Cache) (t : String) (e : PErr),
       liquidParsePre (liquidPreprocess t) = .error e →
       (liquidParseCached cache t).1 = cache) :=
  ⟨fun cache t e he => parseCachedWith_error (googlePreprocess t)
     (fun _ => googleParsePre (googlePreprocess t)) cache e he,
   fun cache t e he => parseCachedWith_error (numpyPreprocess t)
     (fun _ => numpyParsePre (numpyPreprocess t)) cache e he,
   fun cache t e he => parseCachedWith_error (tupleKey (liquidPreprocess t))
     (fun _ => liquidParsePre (liquidPreprocess t)) cache e he⟩

/-- C9 (witness): the duplicate-section failure on `c2GoogleText` adds
nothing to an empty cache. -/
theorem c9_failed_parse_cache_witness :
    (googleParseCached [] c2GoogleText).1 = [] :=
  c9_failed_parse_cache.1 [] c2GoogleText (.dup "Args" "Parameters") rfl

/-- C10: the liquidpy `API` flag — `_preprocess` computes it as whether
the raw first line is the literal `@API`, `_parse` stores it as the
boolean `API` entry, the section loop of `_format` skips boolean
values, and the rendered text starts with an inserted `@API` line
exactly when the flag is true. -/
theorem c10_api_flag :
    (∀ t : String, (liquidPreprocess t).2 = firstLineIsAPI t) ∧
    (∀ (pa : String × Bool) (d : Doc), liquidParsePre pa = .ok d →
       docGet d "API" = some (PVal.bool pa.2)) ∧
    (∀ (n : Nat) (k : String) (b : Bool) (rest : Doc) (indent base : String),
       fmtDocLiquidGo (n + 1) ((k, PVal.bool b) :: rest) indent base =
         fmtDocLiquidGo n rest indent base) ∧
    (∀ (n : Nat) (d : Doc) (indent base s : String),
       docGet d "API" = some (PVal.bool true) →
       liquidFormatDoc n d indent base = .ok s →
       strStartsWith s "@API\n" = true) ∧
    (∀ (n : Nat) (d : Doc) (indent base : String),
       docGet d "API" = some (PVal.bool false) →
       liquidFormatDoc n d indent base =
         Except.map (fun parts => joinNL parts ++ "\n")
           (fmtDocLiquidGo n d indent base)) :=
  ⟨liquidPreprocess_api, liquidParsePre_api, fmtDocLiquidGo_skips_bool,
   liquidFormatDoc_api_true, liquidFormatDoc_api_false⟩

/-- C10 (witness): the flag-true rendering of `c10Doc` starts with the
inserted `@API` line. -/
theorem c10_api_flag_witness :
    strStartsWith "@API\nhello\n" "@API\n" = true :=
  c10_api_flag.2.2.2.1 300 c10Doc "" INDENT_BASE "@API\nhello\n" rfl rfl

end Pardoc
